import Mathlib

/-!
Shallow embedding of the simulation-stepper core of AlphaDataCenterCooling
(file testcase.py, class TestCase), together with proofs settling the
frozen claims about it.

Modelling conventions:
* Python floats are modelled as exact rationals.
* The opaque co-simulation engine (FMPy or PyFMI) is an oracle
  `engine : Nat -> EngineRes` indexed by the number of engine invocations
  made so far; each invocation either yields a map from channel names to
  the final-sample values (`ok`) or fails (`fail`), covering both an
  exception raised by the backend and the None result of
  `_simulate_fmu_improved`.
* The frozen MLP regression model (`mlp.pth`, used by
  `__calc_head_required`) is an opaque pure function in the configuration.
* Python dictionaries are association lists; Python exceptions that
  escape a method are the `raised` outcome; handled validation failures
  are ordinary `(status, message, payload)` triples.  Format placeholders
  of the source messages are dropped: messages are fixed strings.
-/

namespace ADCC

/-- A value supplied by the caller for a control input or a parameter:
`null` is the Python None, `num q` any value convertible by float(), and
`bad` a value on which float() raises. -/
inductive CtrlVal where
  | null : CtrlVal
  | num (q : ℚ) : CtrlVal
  | bad : CtrlVal
deriving DecidableEq, Repr

/-- Result of Python float() applied to a caller value: None and
non-convertible values raise, numbers convert. -/
def CtrlVal.toFloat : CtrlVal → Option ℚ
  | .num q => some q
  | _ => none

/-- A JSON-serializable value appearing in payloads: the latest-value
slots start as empty lists and become scalars after the first store. -/
inductive JVal where
  | num (q : ℚ) : JVal
  | list (l : List ℚ) : JVal
deriving DecidableEq, Repr

/-- Python exceptions that can escape the methods of the model. -/
inductive PyExn where
  | keyError : PyExn
  | typeError : PyExn
  | zeroDivisionError : PyExn
  | indexError : PyExn
  | attributeError : PyExn
  | nameError (n : String) : PyExn
  | engineError (msg : String) : PyExn
deriving DecidableEq, Repr

/-- Outcome of a method call: a normal return or an uncaught exception. -/
inductive Outcome (α : Type) where
  | ret (v : α) : Outcome α
  | raised (e : PyExn) : Outcome α
deriving DecidableEq, Repr

/-- The uniform (status, message, payload) response triple. -/
structure Triple where
  status : ℕ
  message : String
  payload : Option (List (String × JVal))
deriving DecidableEq, Repr

/-- One engine invocation either produces the final-sample value of every
filtered channel or fails. -/
inductive EngineRes where
  | ok (out : String → ℚ) : EngineRes
  | fail : EngineRes

/-- Association-list lookup with first-match semantics, as used for
Python dict and pandas row access. -/
def aLookup {α : Type} : List (String × α) → String → Option α
  | [], _ => none
  | p :: rest, k => if p.1 = k then some p.2 else aLookup rest k

/-- Association-list update-or-append, the semantics of dict assignment. -/
def aInsert {α : Type} (l : List (String × α)) (k : String) (v : α) :
    List (String × α) :=
  if (aLookup l k).isSome then
    l.map (fun p => if p.1 = k then (k, v) else p)
  else l ++ [(k, v)]

/-- Python min over a list, None when the list is empty (ValueError). -/
def pyMin : List ℚ → Option ℚ
  | [] => none
  | q :: rest =>
    match pyMin rest with
    | none => some q
    | some m => some (min q m)

/-- Python max over a list, None when the list is empty (ValueError). -/
def pyMax : List ℚ → Option ℚ
  | [] => none
  | q :: rest =>
    match pyMax rest with
    | none => some q
    | some m => some (max q m)

/-- Immutable data loaded in the constructor of TestCase: channel name
lists from the FMU, the disturbance table, the warm-start tables and the
frozen regression model. -/
structure Config where
  output_names : List String
  input_names_without_distubance : List String
  input_keys : List String
  disturbance_data : List (ℚ × List (String × ℚ))
  initialization_actions : List (List (String × ℚ))
  initialization_obs0 : List (String × ℚ)
  mlp : ℚ → ℚ → ℚ → ℚ → ℚ

/-- The hard-coded disturbance variable list of the constructor. -/
def disturbance_var : List String := ["Twb_outside", "Mchw", "Tchw_r"]

/-- Time-indexed row lookup in the disturbance table. -/
def qLookup {α : Type} : List (ℚ × α) → ℚ → Option α
  | [], _ => none
  | p :: rest, t => if p.1 = t then some p.2 else qLookup rest t

/-- Lookup disturbance_data.loc[t, key]; None models the KeyError. -/
def distLookup (cfg : Config) (t : ℚ) (key : String) : Option ℚ :=
  match qLookup cfg.disturbance_data t with
  | none => none
  | some row => aLookup row key

/-- Mutable session state of the TestCase instance. -/
structure State where
  step : ℚ
  start_time : ℚ
  end_time : ℚ
  initialize_fmu : Bool
  start_time_itr : ℚ
  final_time_itr : ℚ
  y : List (String × JVal)
  u : List (String × JVal)
  y_store : List (String × List ℚ)
  u_store : List (String × List ℚ)
  P_chillers_sum : ℚ
deriving DecidableEq, Repr

/-- Whether a rational is 0 or a positive multiple of the 300 s base
interval, the float modulo-300 test of the source. -/
def mult300 (q : ℚ) : Bool := q.den == 1 && q.num % 300 == 0

/-- Fresh per-channel history storage built by __initilize_data. -/
def initStore (names : List String) : List (String × List ℚ) :=
  ("time", []) :: names.map (fun n => (n, []))

/-- Fresh latest-value slots built by __initilize_data: every slot is an
empty list until the first stored result. -/
def initLatest (names : List String) : List (String × JVal) :=
  ("time", .list []) :: names.map (fun n => (n, .list []))

/-- The data reset performed by __initilize_data: clears the latest
values and histories and zeroes the carried chiller power.  The clock
fields are untouched. -/
def initilize_data (cfg : Config) (s : State) : State :=
  { s with
    y := initLatest cfg.output_names
    y_store := initStore cfg.output_names
    u := initLatest cfg.input_names_without_distubance
    u_store := initStore cfg.input_names_without_distubance
    P_chillers_sum := 0 }

/-- The body of __store_results: writes the final sample of every tracked
channel to the latest-value slots and, when store is true, appends it to
the histories. -/
def store_results (out : String → ℚ) (store : Bool) (s : State) : State :=
  { s with
    y := s.y.map (fun p => (p.1, .num (out p.1)))
    y_store := if store then s.y_store.map (fun p => (p.1, p.2 ++ [out p.1]))
               else s.y_store
    u := s.u.map (fun p => (p.1, .num (out p.1)))
    u_store := if store then s.u_store.map (fun p => (p.1, p.2 ++ [out p.1]))
               else s.u_store }

/-- The merged snapshot of _get_full_current_state: the y dict updated by
the u dict. -/
def fullState (s : State) : List (String × JVal) :=
  s.y.map (fun p => (p.1, (aLookup s.u p.1).getD p.2)) ++
    s.u.filter (fun p => (aLookup s.y p.1).isNone)

/-- The distinguished t=0 snapshot row returned by initialize(0). -/
def obs0Payload (cfg : Config) : List (String × JVal) :=
  cfg.initialization_obs0.map (fun p => (p.1, .num p.2))

/-- The body of __calc_Mcw, verbatim from the source. -/
def calc_Mcw (Mchw P_chillers_sum Tchw_r Tchws_set_CHI : ℚ) : ℚ :=
  Mchw + (P_chillers_sum / (4200 * (Tchw_r - Tchws_set_CHI)))

/-- Accumulator of the per-substep input-composition loop of advance:
the running setpoint, the two disturbance scalars picked out for the
mass-flow computation, and the trajectory rows appended so far. -/
structure CompAcc where
  Tset : ℚ
  Mchw : Option ℚ
  Tchw_r : Option ℚ
  traj : List (String × CtrlVal)
deriving DecidableEq, Repr

/-- The for-key-in-input_keys loop of advance (lines 544 to 570): caller
values take the first branch (None values are skipped, non-convertible
values return a 400 triple), disturbance variables are looked up at the
substep start time (a missing row raises KeyError). -/
def composeLoop (cfg : Config) (u : List (String × CtrlVal)) (t : ℚ) :
    List String → CompAcc → Except (Triple ⊕ PyExn) CompAcc
  | [], acc => .ok acc
  | key :: rest, acc =>
    if key ≠ "time" ∧ (aLookup u key).isSome then
      match aLookup u key with
      | some (.num q) =>
        composeLoop cfg u t rest
          { acc with
            Tset := if key = "Tchws_set_CHI" then q else acc.Tset
            traj := acc.traj ++ [(key, .num q)] }
      | some .bad =>
        .error (.inl ⟨400, "Invalid value for input. Value must be a float, integer, or string able to be converted to a float.", none⟩)
      | _ => composeLoop cfg u t rest acc
    else if key ∈ disturbance_var then
      match distLookup cfg t key with
      | none => .error (.inr .keyError)
      | some v =>
        composeLoop cfg u t rest
          { acc with
            Mchw := if key = "Mchw" then some v else acc.Mchw
            Tchw_r := if key = "Tchw_r" then some v else acc.Tchw_r
            traj := acc.traj ++ [(key, .num v)] }
    else composeLoop cfg u t rest acc

/-- One composed sub-step input trajectory, with the intermediate values
kept visible: the setpoint actually used, the two disturbance scalars,
the cooling-water mass flow handed to the estimator and the estimator
output. -/
structure TrajOut where
  traj : List (String × CtrlVal)
  Tset : ℚ
  Mchw : Option ℚ
  Tchw_r : Option ℚ
  Mcw : ℚ
  Head_required : ℚ
deriving DecidableEq, Repr

/-- Lines 536 to 583 of advance for one sub-step with a non-empty control
mapping: run the key loop, compute Mcw = __calc_Mcw(...)/1000, call the
estimator, and append the Head_required row, preferring a caller-supplied
value verbatim. -/
def composeTrajectory (cfg : Config) (u : List (String × CtrlVal))
    (cc hc cv : ℚ) (P : ℚ) (t : ℚ) : Except (Triple ⊕ PyExn) TrajOut :=
  match composeLoop cfg u t cfg.input_keys ⟨286.55, none, none, []⟩ with
  | .error e => .error e
  | .ok acc =>
    match acc.Tchw_r with
    | none => .error (.inr .typeError)
    | some tr =>
      if 4200 * (tr - acc.Tset) = 0 then .error (.inr .zeroDivisionError)
      else
        match acc.Mchw with
        | none => .error (.inr .typeError)
        | some mchw =>
          let mcw := calc_Mcw mchw P tr acc.Tset / 1000
          let hd := cfg.mlp cc hc cv mcw
          let lastRow : String × CtrlVal :=
            match aLookup u "Head_required" with
            | some v => ("Head_required", v)
            | none => ("Head_required", .num hd)
          .ok ⟨acc.traj ++ [lastRow], acc.Tset, acc.Mchw, acc.Tchw_r, mcw, hd⟩

/-- Python expression u.get(k, 0) or 0 followed by addition: absent and
None values count 0, numbers count themselves, a non-numeric truthy value
makes the addition raise TypeError. -/
def getOr0 (u : List (String × CtrlVal)) (k : String) : Outcome ℚ :=
  match aLookup u k with
  | none => .ret 0
  | some .null => .ret 0
  | some (.num q) => .ret q
  | some .bad => .raised .typeError

/-- Sum of getOr0 over a list of channel names. -/
def sumGetOr0 (u : List (String × CtrlVal)) : List String → Outcome ℚ
  | [] => .ret 0
  | k :: rest =>
    match getOr0 u k with
    | .raised e => .raised e
    | .ret q =>
      match sumGetOr0 u rest with
      | .raised e => .raised e
      | .ret r => .ret (q + r)

/-- The six chiller activation channels. -/
def chillerKeys : List String :=
  ["CHI01", "CHI02", "CHI03", "CHI04", "CHI05", "CHI06"]

/-- The six heat-exchanger activation channels. -/
def hexKeys : List String :=
  ["CHI01_CW3", "CHI02_CW3", "CHI03_CW3", "CHI04_CW3", "CHI05_CW3", "CHI06_CW3"]

/-- The six cooling-tower valve channels. -/
def ctKeys : List String :=
  ["U_CT1", "U_CT2", "U_CT3", "U_CT4", "U_CT5", "U_CT6"]

/-- Lines 522 to 524 of advance: the three staging counts, with the
cooling-tower valve count doubled. -/
def advCounts (u : List (String × CtrlVal)) : Outcome (ℚ × ℚ × ℚ) :=
  match sumGetOr0 u chillerKeys with
  | .raised e => .raised e
  | .ret cc =>
    match sumGetOr0 u hexKeys with
    | .raised e => .raised e
    | .ret hc =>
      match sumGetOr0 u ctKeys with
      | .raised e => .raised e
      | .ret cv => .ret (cc, hc, cv * 2)

/-- Sum of the six per-chiller power outputs at the final sample. -/
def pchiSum (out : String → ℚ) : ℚ :=
  out "Pchi1" + out "Pchi2" + out "Pchi3" + out "Pchi4" + out "Pchi5" + out "Pchi6"

/-- One engine invocation of a sub-step with the single retry of lines
587 to 639: a failing primary call is retried exactly once; a second
failure raises out of advance. -/
def engineStep (engine : ℕ → EngineRes) (nc : ℕ) : Outcome (String → ℚ) × ℕ :=
  match engine nc with
  | .ok out => (.ret out, nc + 1)
  | .fail =>
    match engine (nc + 1) with
    | .ok out => (.ret out, nc + 2)
    | .fail => (.raised (.engineError "FMPy retry simulation also failed"), nc + 2)

/-- Result of the sub-step loop of advance. -/
inductive LoopRes where
  | done (s : State) (nc : ℕ) (ws : List (ℚ × ℚ)) (ts : List (Option TrajOut))
      (res : Option (String → ℚ)) : LoopRes
  | early (t : Triple) (s : State) (nc : ℕ) (ws : List (ℚ × ℚ))
      (ts : List (Option TrajOut)) : LoopRes
  | err (e : PyExn) (s : State) (nc : ℕ) (ws : List (ℚ × ℚ))
      (ts : List (Option TrajOut)) : LoopRes

/-- The input_object of one sub-step: None when the control mapping is
empty (lines 584 to 585), otherwise the composed trajectory. -/
def substepInput (cfg : Config) (u : List (String × CtrlVal))
    (cc hc cv : ℚ) (P t : ℚ) : Except (Triple ⊕ PyExn) (Option TrajOut) :=
  if u.isEmpty then .ok none
  else (composeTrajectory cfg u cc hc cv P t).map some

/-- The for-i-in-range(iteration_num) loop of advance.  ws accumulates
the (start_time_itr, final_time_itr) window of every sub-step entered and
ts the composed trajectory of every sub-step that reached the engine call
(none when the control mapping was empty and input_object was None). -/
def advLoop (cfg : Config) (engine : ℕ → EngineRes) (u : List (String × CtrlVal))
    (cc hc cv : ℚ) (st0 stp : ℚ) (n : ℕ) :
    List ℕ → State → ℕ → List (ℚ × ℚ) → List (Option TrajOut) →
      Option (String → ℚ) → LoopRes
  | [], s, nc, ws, ts, res => .done s nc ws ts res
  | i :: rest, s, nc, ws, ts, _res =>
    let start_itr : ℚ := st0 + 300 * (i : ℚ)
    let final_itr : ℚ := if i < n - 1 then st0 + 300 * ((i : ℚ) + 1) else st0 + stp
    let s1 : State := { s with start_time_itr := start_itr, final_time_itr := final_itr }
    let ws1 := ws ++ [(start_itr, final_itr)]
    match substepInput cfg u cc hc cv s1.P_chillers_sum start_itr with
    | .error (.inl t) => .early t s1 nc ws1 ts
    | .error (.inr e) => .err e s1 nc ws1 ts
    | .ok inp =>
      match engineStep engine nc with
      | (.raised e, nc1) => .err e s1 nc1 ws1 (ts ++ [inp])
      | (.ret out, nc1) =>
        advLoop cfg engine u cc hc cv st0 stp n rest
          { s1 with initialize_fmu := false, P_chillers_sum := pchiSum out }
          nc1 ws1 (ts ++ [inp]) (some out)

/-- Result of one advance call: the returned or raised outcome, the state
after the call, the number of engine invocations made so far, and the
ghost traces of sub-step windows and composed trajectories. -/
structure AdvResult where
  out : Outcome Triple
  s : State
  ncalls : ℕ
  windows : List (ℚ × ℚ)
  trajs : List (Option TrajOut)
deriving Repr

/-- The advance method: staging counts, ceil(step / 300) sub-steps, then
the post-loop result handling.  With zero sub-steps the local variable
res is never bound and evaluating it raises NameError. -/
def advance (cfg : Config) (engine : ℕ → EngineRes) (nc : ℕ)
    (u : List (String × CtrlVal)) (s : State) : AdvResult :=
  match advCounts u with
  | .raised e => ⟨.raised e, s, nc, [], []⟩
  | .ret (cc, hc, cv) =>
    let n : ℕ := (⌈s.step / 300⌉).toNat
    match advLoop cfg engine u cc hc cv s.start_time s.step n (List.range n) s nc [] [] none with
    | .early t s1 nc1 ws ts => ⟨.ret t, s1, nc1, ws, ts⟩
    | .err e s1 nc1 ws ts => ⟨.raised e, s1, nc1, ws, ts⟩
    | .done s1 nc1 ws ts res =>
      match res with
      | none => ⟨.raised (.nameError "res"), s1, nc1, ws, ts⟩
      | some out =>
        let s2 := store_results out true s1
        let s3 := { s2 with start_time := s2.final_time_itr }
        ⟨.ret ⟨200, "Advanced simulation successfully.", some (fullState s3)⟩, s3, nc1, ws, ts⟩

/-- The argument validation of initialize, in source order. -/
def validateInit (sv ev : CtrlVal) : Except Triple (ℚ × ℚ) :=
  match sv.toFloat with
  | none => .error ⟨400, "Invalid value for parameter start_time. Value must be a float, integer, or string able to be converted to a float.", none⟩
  | some st =>
    if st < 0 then
      .error ⟨400, "Invalid value for parameter start_time. Value must not be negative.", none⟩
    else if ¬ mult300 st then
      .error ⟨400, "Invalid value for parameter start_time. Value must be 0 or a multiple of 300.", none⟩
    else
      match ev.toFloat with
      | none => .error ⟨400, "Invalid value for parameter end_time. Value must be a float, integer, or string able to be converted to a float.", none⟩
      | some en =>
        if en < 0 then
          .error ⟨400, "Invalid value for parameter end_time. Value must not be negative.", none⟩
        else if en ≤ st then
          .error ⟨400, "Invalid value for parameter end_time. Value must be greater than start_time.", none⟩
        else if ¬ mult300 en then
          .error ⟨400, "Invalid value for parameter end_time. Value must be a multiple of 300.", none⟩
        else if 30099300 < en then
          .error ⟨400, "Invalid value for parameter end_time. Value must be less than or equal 30099300 seconds.", none⟩
        else .ok (st, en)

/-- The warm-up input construction of initialize for a non-zero start
time (lines 383 to 398): the warm-start action row at index
int((start-300)/300) plus the matching disturbance row. -/
def warmupTraj (cfg : Config) (st : ℚ) : Outcome (List (String × ℚ)) :=
  let init_t1 : ℚ := st - 300
  match cfg.initialization_actions.get? (⌊init_t1 / 300⌋).toNat with
  | none => .raised .indexError
  | some init_u => warmupLoop cfg init_t1 init_u cfg.input_keys []
where
  /-- The key loop of the warm-up input construction. -/
  warmupLoop (cfg : Config) (init_t1 : ℚ) (init_u : List (String × ℚ)) :
      List String → List (String × ℚ) → Outcome (List (String × ℚ))
    | [], acc => .ret acc
    | key :: rest, acc =>
      if key ≠ "time" ∧ (aLookup init_u key).isSome then
        match aLookup init_u key with
        | some v => warmupLoop cfg init_t1 init_u rest (acc ++ [(key, v)])
        | none => warmupLoop cfg init_t1 init_u rest acc
      else if key ∈ disturbance_var then
        match distLookup cfg init_t1 key with
        | none => .raised .keyError
        | some v => warmupLoop cfg init_t1 init_u rest (acc ++ [(key, v)])
      else warmupLoop cfg init_t1 init_u rest acc

/-- The initialize method: the engine reset and the data reset of
__initilize_data run before any validation; then validation, then either
the direct t=0 snapshot or one 300 s warm-up sub-step.  Only the warm-up
branch assigns the clock fields start_time and end_time. -/
def initializeCase (cfg : Config) (engine : ℕ → EngineRes) (nc : ℕ)
    (sv ev : CtrlVal) (s : State) : Outcome Triple × State × ℕ :=
  let s0 := initilize_data cfg s
  match validateInit sv ev with
  | .error t => (.ret t, s0, nc)
  | .ok (st, en) =>
    let s1 : State := { s0 with initialize_fmu := true }
    if st = 0 then
      (.ret ⟨200, "Simulation initialized successfully to 0s.", some (obs0Payload cfg)⟩, s1, nc)
    else
      match warmupTraj cfg st with
      | .raised e => (.raised e, s1, nc)
      | .ret _traj =>
        match engine nc with
        | .fail =>
          (.ret ⟨500, "Failed to simulate FMU for warmup period.", none⟩, s1, nc + 1)
        | .ok out =>
          let s2 : State :=
            { store_results out false s1 with
              initialize_fmu := false, start_time := st, end_time := en }
          (.ret ⟨200, "Simulation initialized successfully with warmup period of 300s.", some (fullState s2)⟩, s2, nc + 1)

/-- The set_step method. -/
def set_step (v : CtrlVal) (s : State) : Triple × State :=
  match v.toFloat with
  | none =>
    (⟨400, "Invalid value for parameter step. Value must be a float, integer, or string able to be converted to a float.", none⟩, s)
  | some q =>
    if q < 0 then
      (⟨400, "Invalid value for parameter step. Value must not be negative.", none⟩, s)
    else if ¬ mult300 q then
      (⟨400, "Invalid value for parameter step. Value must be a multiple of 300 or 0.", none⟩, s)
    else
      (⟨200, "Control step set successfully.", some [("step", .num q)]⟩, { s with step := q })

/-- The point_names loop of get_results (lines 874 to 884): collect each
requested channel history, None on an unknown name (the 400 return). -/
def buildPayload (s : State) : List String → List (String × List ℚ) →
    Option (List (String × List ℚ))
  | [], acc => some acc
  | p :: rest, acc =>
    match aLookup s.y_store p with
    | some v => buildPayload s rest (aInsert acc p v)
    | none =>
      match aLookup s.u_store p with
      | some v => buildPayload s rest (aInsert acc p v)
      | none => none

/-- Python slice l[i1:i2]. -/
def pySlice (l : List ℚ) (i1 i2 : ℕ) : List ℚ := (l.drop i1).take (i2 - i1)

/-- The per-key trajectory slicing of get_results line 921. -/
def sliceKeys (p : List (String × List ℚ)) (keys : List String) (i1 i2 : ℕ) :
    List (String × List ℚ) :=
  keys.foldl
    (fun acc k => acc.map (fun q => if q.1 = k then (k, pySlice q.2 i1 i2) else q)) p

/-- The shared-window computation of get_results (lines 890 to 922),
executed inside the try block: None models any exception caught there
(ValueError from min or max of an empty history, IndexError from an
empty time selection), which get_results reports as a 500. -/
def windowSlice (p1 : List (String × List ℚ)) (pns : List String)
    (start final : ℚ) : Option (List (String × List ℚ)) :=
  if p1.isEmpty ∨ (aLookup p1 "time").isNone then some p1
  else
    match aLookup p1 "time" with
    | none => some p1
    | some times =>
      match pyMin times, pyMax times with
      | some min_t, some max_t =>
        let t1? : Option ℚ :=
          if min_t < start then
            if start ∈ times then some start
            else (times.filter (fun q => start ≤ q)).head?
          else some min_t
        let t2? : Option ℚ :=
          if final < max_t then
            if final ∈ times then some final
            else (times.filter (fun q => q ≤ final)).getLast?
          else some max_t
        match t1?, t2? with
        | some t1, some t2 =>
          match times.indexOf? t1, times.indexOf? t2 with
          | some i1, some j2 => some (sliceKeys p1 (pns ++ ["time"]) i1 (j2 + 1))
          | _, _ => none
        | _, _ => none
      | _, _ => none

/-- The get_results method.  After a successful window computation the
source calls .tolist() on each stored history, which is a plain Python
list; that raises AttributeError, so only an empty payload returns. -/
def get_results (pns : List String) (sv fv : CtrlVal) (s : State) :
    Outcome Triple :=
  match sv.toFloat with
  | none =>
    .ret ⟨400, "Invalid value for parameter start time. Value must be float, integer, or string able to be converted to a float.", none⟩
  | some start =>
    match fv.toFloat with
    | none =>
      .ret ⟨400, "Invalid value for parameter start time. Value must be float, integer, or string able to be converted to a float.", none⟩
    | some final =>
      match buildPayload s pns [] with
      | none =>
        .ret ⟨400, "Invalid point name in parameter point_names. Check lists of available inputs and measurements.", none⟩
      | some p0 =>
        let p1 :=
          if s.y_store.any (fun q => q.1 ∈ pns) then
            match aLookup s.y_store "time" with
            | some tv => some (aInsert p0 "time" tv)
            | none => none
          else if s.u_store.any (fun q => q.1 ∈ pns) then
            match aLookup s.u_store "time" with
            | some tv => some (aInsert p0 "time" tv)
            | none => none
          else some p0
        match p1 with
        | none => .ret ⟨500, "Failed query simulation results.", none⟩
        | some p1 =>
          match windowSlice p1 pns start final with
          | none => .ret ⟨500, "Failed query simulation results.", none⟩
          | some p2 =>
            if p2.isEmpty then
              .ret ⟨200, "Queried results data succesfully for point names.", some []⟩
            else .raised .attributeError

/-- Iterated advance with an empty control mapping, stopping at the first
non-success; models k consecutive successful advance calls. -/
def advanceK (cfg : Config) (engine : ℕ → EngineRes) :
    ℕ → ℕ → State → Option (State × ℕ)
  | 0, nc, s => some (s, nc)
  | Nat.succ k, nc, s =>
    let r := advance cfg engine nc [] s
    match r.out with
    | .ret t => if t.status = 200 then advanceK cfg engine k r.ncalls r.s else none
    | .raised _ => none

/-- The (start_time_itr, final_time_itr) window of sub-step i of an
advance call with clock origin st0, step stp and n sub-steps. -/
def winOf (st0 stp : ℚ) (n : ℕ) (i : ℕ) : ℚ × ℚ :=
  (st0 + 300 * (i : ℚ), if i < n - 1 then st0 + 300 * ((i : ℚ) + 1) else st0 + stp)

/-- The sub-step windows advance computes for a given clock origin, step
and sub-step count. -/
def wmap (st0 stp : ℚ) (n : ℕ) (l : List ℕ) : List (ℚ × ℚ) :=
  l.map (winOf st0 stp n)

/-- The full window list of one advance call. -/
def stdWindows (st0 stp : ℚ) (n : ℕ) : List (ℚ × ℚ) := wmap st0 stp n (List.range n)

/-- Durations of the sub-steps of one advance call. -/
def substepDurations (r : AdvResult) : List ℚ := r.windows.map (fun w => w.2 - w.1)

/-- The cooling-water mass flow as the claim words it: only the power
term is divided by 1000 before being added to the chilled-water mass
flow.  This follows the claim, not the source, and exists to be compared
with the Mcw the source computes. -/
def spec_Mcw (Mchw P Tchw_r Tset : ℚ) : ℚ :=
  Mchw + (P / (4200 * (Tchw_r - Tset))) / 1000

/-- A configuration exercising the disturbance-sourced mass-flow path:
two disturbance channels, a disturbance row at time 0, and a regression
model that returns its mass-flow argument unchanged so that the value
passed to it is observable. -/
def c3cfg : Config where
  output_names := []
  input_names_without_distubance := []
  input_keys := ["Mchw", "Tchw_r"]
  disturbance_data := [(0, [("Mchw", 2), ("Tchw_r", 288.55)])]
  initialization_actions := []
  initialization_obs0 := []
  mlp := fun _ _ _ d => d

/-- A non-empty control mapping that supplies neither the setpoint nor
the head. -/
def c3u : List (String × CtrlVal) := [("CHI01", .num 1)]

/-- The trajectory the sub-step composer produces for c3cfg and c3u at
time 0 with carried power 4200. -/
def c3out : TrajOut where
  traj := [("Mchw", .num 2), ("Tchw_r", .num 288.55), ("Head_required", .num (1 / 400))]
  Tset := 286.55
  Mchw := some 2
  Tchw_r := some 288.55
  Mcw := 1 / 400
  Head_required := 1 / 400

/-- A control mapping that supplies an explicit Head_required value. -/
def c4u : List (String × CtrlVal) := [("Head_required", .num 9)]

/-- The trajectory the sub-step composer produces for c3cfg and c4u at
time 0 with carried power 0: the trailing Head_required row carries the
caller value 9, not the estimator output. -/
def c4out : TrajOut where
  traj := [("Mchw", .num 2), ("Tchw_r", .num 288.55), ("Head_required", .num 9)]
  Tset := 286.55
  Mchw := some 2
  Tchw_r := some 288.55
  Mcw := 1 / 500
  Head_required := 1 / 500

/-- The status of a returned triple, None for a raised exception. -/
def statusOf (o : Outcome Triple) : Option ℕ :=
  match o with
  | .ret t => some t.status
  | .raised _ => none

/-- A minimal configuration used for concrete evaluations. -/
def cfg0 : Config where
  output_names := []
  input_names_without_distubance := []
  input_keys := []
  disturbance_data := []
  initialization_actions := []
  initialization_obs0 := [("Tchws", 287)]
  mlp := fun _ _ _ _ => 0

/-- An engine oracle that always succeeds with all-zero outputs. -/
def engine0 : ℕ → EngineRes := fun _ => .ok (fun _ => 0)

/-- An engine oracle that always fails. -/
def engineFail : ℕ → EngineRes := fun _ => .fail

/-- A concrete session state with step 300 used for concrete evaluations. -/
def s0 : State where
  step := 300
  start_time := 600
  end_time := 30099300
  initialize_fmu := false
  start_time_itr := 0
  final_time_itr := 0
  y := [("time", .list []), ("Pchi1", .list [])]
  u := [("time", .list [])]
  y_store := [("time", [300]), ("Pchi1", [12])]
  u_store := [("time", [300])]
  P_chillers_sum := 7

/-- An engine oracle that fails on the first call and succeeds on every
later call. -/
def engineRetry : ℕ → EngineRes := fun n => if n = 0 then .fail else .ok (fun _ => 1)

/-- A configuration with no disturbance rows at all. -/
def cfgNoDist : Config where
  output_names := []
  input_names_without_distubance := []
  input_keys := ["Mchw", "Tchw_r"]
  disturbance_data := []
  initialization_actions := []
  initialization_obs0 := []
  mlp := fun _ _ _ _ => 0

/-- The triple initialize returns for start time 0 under cfg0. -/
def tInit0 : Triple :=
  ⟨200, "Simulation initialized successfully to 0s.", some [("Tchws", .num 287)]⟩

/-- The state initialize(0) leaves behind when called on s0 under cfg0. -/
def sInit0 : State :=
  { s0 with
    initialize_fmu := true
    y := [("time", .list [])]
    u := [("time", .list [])]
    y_store := [("time", [])]
    u_store := [("time", [])]
    P_chillers_sum := 0 }

/-- The state one successful advance with empty controls leaves behind
when starting from s0 under cfg0 and the all-zero engine. -/
def s0adv : State where
  step := 300
  start_time := 900
  end_time := 30099300
  initialize_fmu := false
  start_time_itr := 600
  final_time_itr := 900
  y := [("time", .num 0), ("Pchi1", .num 0)]
  u := [("time", .num 0)]
  y_store := [("time", [300, 0]), ("Pchi1", [12, 0])]
  u_store := [("time", [300, 0])]
  P_chillers_sum := 0

theorem aLookup_mem {α : Type} {l : List (String × α)} {k : String} {v : α}
    (h : aLookup l k = some v) : (k, v) ∈ l := by
  induction l with
  | nil => exact absurd h (by simp [aLookup])
  | cons p rest ih =>
    rw [aLookup] at h
    split at h
    · next heq =>
      obtain ⟨a, b⟩ := p
      obtain rfl : b = v := by injection h
      obtain rfl : a = k := heq
      exact List.mem_cons_self _ _
    · exact List.mem_cons_of_mem _ (ih h)

theorem sumGetOr0_ret {u : List (String × CtrlVal)}
    (hu : ∀ p ∈ u, p.2 ≠ CtrlVal.bad) (keys : List String) :
    ∃ q, sumGetOr0 u keys = .ret q := by
  induction keys with
  | nil => exact ⟨0, rfl⟩
  | cons k rest ih =>
    obtain ⟨q, hq⟩ := ih
    have hg : ∃ r, getOr0 u k = .ret r := by
      unfold getOr0
      cases hl : aLookup u k with
      | none => exact ⟨0, rfl⟩
      | some v =>
        cases v with
        | null => exact ⟨0, rfl⟩
        | num q => exact ⟨q, rfl⟩
        | bad => exact absurd rfl (hu (k, .bad) (aLookup_mem hl))
    obtain ⟨r, hr⟩ := hg
    exact ⟨r + q, by rw [sumGetOr0, hr, hq]⟩

theorem advCounts_ret {u : List (String × CtrlVal)}
    (hu : ∀ p ∈ u, p.2 ≠ CtrlVal.bad) :
    ∃ c, advCounts u = .ret c := by
  obtain ⟨q1, h1⟩ := sumGetOr0_ret hu chillerKeys
  obtain ⟨q2, h2⟩ := sumGetOr0_ret hu hexKeys
  obtain ⟨q3, h3⟩ := sumGetOr0_ret hu ctKeys
  exact ⟨(q1, q2, q3 * 2), by rw [advCounts, h1, h2, h3]⟩

theorem set_step_zero (s : State) :
    set_step (.num 0) s =
      (⟨200, "Control step set successfully.", some [("step", .num 0)]⟩,
       { s with step := 0 }) := by
  have hm : mult300 0 = true := by decide
  simp [set_step, CtrlVal.toFloat, hm]

/-- Claim C9: set_step accepts step 0 as valid; an advance call in a
state with step 0 executes zero sub-steps and then evaluates the unbound
local variable res, raising NameError instead of returning a status
triple, so advance is not total over states reachable through the public
interface. -/
theorem claim_C9 (cfg : Config) (engine : ℕ → EngineRes) (nc : ℕ)
    (u : List (String × CtrlVal)) (s : State)
    (hu : ∀ p ∈ u, p.2 ≠ CtrlVal.bad) :
    (set_step (.num 0) s).1.status = 200 ∧
    (set_step (.num 0) s).2.step = 0 ∧
    (advance cfg engine nc u (set_step (.num 0) s).2).out = .raised (.nameError "res") ∧
    (advance cfg engine nc u (set_step (.num 0) s).2).ncalls = nc ∧
    (advance cfg engine nc u (set_step (.num 0) s).2).windows = [] := by
  rw [set_step_zero]
  obtain ⟨⟨cc, hcv, cv⟩, hcounts⟩ := advCounts_ret hu
  have hstep : ({ s with step := 0 } : State).step = 0 := rfl
  have hn : ((⌈(0 : ℚ) / 300⌉).toNat) = 0 := by norm_num
  refine ⟨rfl, rfl, ?_, ?_, ?_⟩ <;>
    simp [advance, hcounts, hstep, hn, List.range_zero, advLoop]

theorem advCounts_nil : advCounts [] = .ret (0, 0, 0) := by
  simp [advCounts, sumGetOr0, getOr0, aLookup, chillerKeys, hexKeys, ctKeys]

theorem substepInput_nil (cfg : Config) (cc hc cv P t : ℚ) :
    substepInput cfg [] cc hc cv P t = .ok none := by
  simp [substepInput]

theorem ceil_step_300 {s : State} (h : s.step = 300) :
    ((⌈s.step / 300⌉).toNat) = 1 := by
  rw [h]; norm_num

theorem ceil_step_600 {s : State} (h : s.step = 600) :
    ((⌈s.step / 300⌉).toNat) = 2 := by
  rw [h]
  norm_num
  decide

theorem range_one : List.range 1 = [0] := by decide

theorem range_two : List.range 2 = [0, 1] := by decide

/-- Claim C5 (amended): a failing primary engine call of a sub-step is
retried exactly once (two engine invocations in total); a successful
retry lets the sub-step proceed, while a second failure makes advance
raise the engine error out of the call instead of returning a
(status, message, payload) triple. -/
theorem claim_C5 (cfg : Config) (engine : ℕ → EngineRes) (nc : ℕ) (s : State)
    (hstep : s.step = 300) (hfail : engine nc = .fail) :
    (∀ out, engine (nc + 1) = .ok out →
      statusOf (advance cfg engine nc [] s).out = some 200 ∧
      (advance cfg engine nc [] s).ncalls = nc + 2) ∧
    (engine (nc + 1) = .fail →
      (advance cfg engine nc [] s).out =
        .raised (.engineError "FMPy retry simulation also failed") ∧
      (advance cfg engine nc [] s).ncalls = nc + 2) := by
  have hn := ceil_step_300 hstep
  constructor
  · intro out hok
    simp [advance, advCounts_nil, hn, range_one, advLoop, substepInput_nil, engineStep,
      hfail, hok, statusOf]
  · intro hfail2
    simp [advance, advCounts_nil, hn, range_one, advLoop, substepInput_nil, engineStep,
      hfail, hfail2, statusOf]

/-- Counterexample to claim C5 as stated: with an engine that fails on
both attempts, advance raises the engine error; it does not return a
(status, message, payload) triple, let alone a 500 one. -/
theorem claim_C5_counterexample :
    (advance cfg0 engineFail 0 [] s0).out =
      .raised (.engineError "FMPy retry simulation also failed") ∧
    statusOf (advance cfg0 engineFail 0 [] s0).out = none := by
  have hn : ((⌈s0.step / 300⌉).toNat) = 1 := by norm_num [s0]
  simp [advance, advCounts_nil, hn, range_one, advLoop, substepInput_nil, engineStep,
    engineFail, statusOf]

/-- Witness for claim C5: the retry-also-fails branch at a concrete
engine and state, reached through the theorem. -/
theorem claim_C5_witness :
    (advance cfg0 engineFail 1 [] s0).out =
      .raised (.engineError "FMPy retry simulation also failed") ∧
    (advance cfg0 engineFail 1 [] s0).ncalls = 1 + 2 :=
  (claim_C5 cfg0 engineFail 1 s0 rfl rfl).2 rfl

/-- The sub-step loop with an empty control mapping never reads the
configuration: no trajectory is composed, so neither the disturbance
table nor the estimator is consulted. -/
theorem advLoop_nilu_cfg (cfg cfg2 : Config) (engine : ℕ → EngineRes)
    (cc hc cv st0 stp : ℚ) (n : ℕ) :
    ∀ l s nc ws ts res,
      advLoop cfg engine [] cc hc cv st0 stp n l s nc ws ts res =
      advLoop cfg2 engine [] cc hc cv st0 stp n l s nc ws ts res := by
  intro l
  induction l with
  | nil => intro s nc ws ts res; rfl
  | cons i rest ih =>
    intro s nc ws ts res
    simp only [advLoop, substepInput_nil]
    rcases hes : engineStep engine nc with ⟨o, nc1⟩
    cases o with
    | raised e => rfl
    | ret out => exact ih _ _ _ _ _

theorem composeLoop_inl {cfg : Config} {u : List (String × CtrlVal)} {t0 : ℚ}
    {keys : List String} {acc : CompAcc} {tr : Triple}
    (h : composeLoop cfg u t0 keys acc = .error (.inl tr)) :
    tr.status = 400 ∧ tr.payload = none ∧ tr.message ≠ "" := by
  induction keys generalizing acc with
  | nil => simp [composeLoop] at h
  | cons key rest ih =>
    rw [composeLoop] at h
    repeat' split at h
    all_goals
      first
      | exact ih h
      | (injection h with h2; injection h2 with h3; rw [← h3]
         exact ⟨rfl, rfl, by decide⟩)
      | (injection h with h2; injection h2)

theorem composeTrajectory_inl {cfg : Config} {u : List (String × CtrlVal)}
    {cc hc cv P t : ℚ} {tr : Triple}
    (h : composeTrajectory cfg u cc hc cv P t = .error (.inl tr)) :
    tr.status = 400 ∧ tr.payload = none ∧ tr.message ≠ "" := by
  unfold composeTrajectory at h
  cases hcl : composeLoop cfg u t cfg.input_keys ⟨286.55, none, none, []⟩ with
  | error e =>
    rw [hcl] at h
    injection h with h2
    exact composeLoop_inl (h2 ▸ hcl)
  | ok acc =>
    simp only [hcl] at h
    repeat' split at h
    all_goals
      first
      | (injection h with h2; injection h2)
      | injection h

theorem substepInput_inl {cfg : Config} {u : List (String × CtrlVal)}
    {cc hc cv P t : ℚ} {tr : Triple}
    (h : substepInput cfg u cc hc cv P t = .error (.inl tr)) :
    tr.status = 400 ∧ tr.payload = none ∧ tr.message ≠ "" := by
  unfold substepInput at h
  split at h
  · exact absurd h (by simp)
  · cases hct : composeTrajectory cfg u cc hc cv P t with
    | error e =>
      rw [hct] at h
      simp only [Except.map] at h
      injection h with h2
      exact composeTrajectory_inl (h2 ▸ hct)
    | ok o =>
      rw [hct] at h
      simp [Except.map] at h

theorem advLoop_early_facts {cfg : Config} {engine : ℕ → EngineRes}
    {u : List (String × CtrlVal)} {cc hc cv st0 stp : ℚ} {n : ℕ} :
    ∀ (l : List ℕ) (s : State) (nc : ℕ) (ws : List (ℚ × ℚ))
      (ts : List (Option TrajOut)) (res : Option (String → ℚ))
      (tr : Triple) (s1 : State) (nc1 : ℕ) (ws1 : List (ℚ × ℚ))
      (ts1 : List (Option TrajOut)),
      advLoop cfg engine u cc hc cv st0 stp n l s nc ws ts res =
        .early tr s1 nc1 ws1 ts1 →
      tr.status = 400 ∧ tr.payload = none ∧ tr.message ≠ "" := by
  intro l
  induction l with
  | nil =>
    intro s nc ws ts res tr s1 nc1 ws1 ts1 h
    simp [advLoop] at h
  | cons i rest ih =>
    intro s nc ws ts res tr s1 nc1 ws1 ts1 h
    simp only [advLoop] at h
    cases hsi : substepInput cfg u cc hc cv s.P_chillers_sum (st0 + 300 * (i : ℚ)) with
    | error e =>
      rw [hsi] at h
      cases e with
      | inl t2 =>
        have h2 : t2 = tr := by
          injection h
        exact substepInput_inl (h2 ▸ hsi)
      | inr e2 => simp at h
    | ok inp =>
      rw [hsi] at h
      rcases hes : engineStep engine nc with ⟨o, nc2⟩
      rw [hes] at h
      cases o with
      | raised e => simp at h
      | ret out => exact ih _ _ _ _ _ _ _ _ _ _ h

theorem advLoop_done_facts {cfg : Config} {engine : ℕ → EngineRes}
    {u : List (String × CtrlVal)} {cc hc cv st0 stp : ℚ} {n : ℕ} :
    ∀ (l : List ℕ) (s : State) (nc : ℕ) (ws : List (ℚ × ℚ))
      (ts : List (Option TrajOut)) (res : Option (String → ℚ))
      (s1 : State) (nc1 : ℕ) (ws1 : List (ℚ × ℚ)) (ts1 : List (Option TrajOut))
      (res1 : Option (String → ℚ)),
      advLoop cfg engine u cc hc cv st0 stp n l s nc ws ts res =
        .done s1 nc1 ws1 ts1 res1 →
      s1.step = s.step ∧ s1.start_time = s.start_time ∧ s1.end_time = s.end_time ∧
      s1.y = s.y ∧ s1.u = s.u ∧ s1.y_store = s.y_store ∧ s1.u_store = s.u_store ∧
      ws1 = ws ++ wmap st0 stp n l ∧
      ((l = [] ∧ s1 = s ∧ nc1 = nc ∧ res1 = res) ∨
       (∃ (j : ℕ) (out : String → ℚ), l.getLast? = some j ∧ res1 = some out ∧
         s1.P_chillers_sum = pchiSum out ∧
         s1.final_time_itr = (winOf st0 stp n j).2 ∧
         s1.initialize_fmu = false)) := by
  intro l
  induction l with
  | nil =>
    intro s nc ws ts res s1 nc1 ws1 ts1 res1 h
    simp only [advLoop, LoopRes.done.injEq] at h
    obtain ⟨rfl, rfl, rfl, rfl, rfl⟩ := h
    exact ⟨rfl, rfl, rfl, rfl, rfl, rfl, rfl, by simp [wmap],
      Or.inl ⟨rfl, rfl, rfl, rfl⟩⟩
  | cons i rest ih =>
    intro s nc ws ts res s1 nc1 ws1 ts1 res1 h
    simp only [advLoop] at h
    cases hsi : substepInput cfg u cc hc cv s.P_chillers_sum (st0 + 300 * (i : ℚ)) with
    | error e =>
      rw [hsi] at h
      cases e with
      | inl t2 => simp at h
      | inr e2 => simp at h
    | ok inp =>
      rw [hsi] at h
      rcases hes : engineStep engine nc with ⟨o, nc2⟩
      rw [hes] at h
      cases o with
      | raised e => simp at h
      | ret out =>
        obtain ⟨f1, f2, f3, f4, f5, f6, f7, f8, f9⟩ := ih _ _ _ _ _ _ _ _ _ _ h
        refine ⟨f1, f2, f3, f4, f5, f6, f7, ?_, ?_⟩
        · rw [f8]
          simp [wmap, winOf]
        · rcases f9 with ⟨hrest, hs1, hnc, hres⟩ | ⟨j, out2, hj, hres, hP, hfin, hfmu⟩
          · subst hrest
            right
            refine ⟨i, out, by simp, hres, ?_, ?_, ?_⟩
            · rw [hs1]
            · rw [hs1, winOf]
            · rw [hs1]
          · right
            refine ⟨j, out2, ?_, hres, hP, hfin, hfmu⟩
            cases rest with
            | nil => simp at hj
            | cons a l2 => rw [List.getLast?_cons_cons]; exact hj

theorem range_getLast? {n : ℕ} (hn : 1 ≤ n) :
    (List.range n).getLast? = some (n - 1) := by
  cases n with
  | zero => omega
  | succ m => rw [List.range_succ, List.getLast?_concat]; simp

theorem advance_ret200_facts {cfg : Config} {engine : ℕ → EngineRes} {nc : ℕ}
    {u : List (String × CtrlVal)} {s : State} {t : Triple}
    (h : (advance cfg engine nc u s).out = .ret t) (h200 : t.status = 200) :
    (advance cfg engine nc u s).windows =
      stdWindows s.start_time s.step ((⌈s.step / 300⌉).toNat) ∧
    (advance cfg engine nc u s).s.start_time = s.start_time + s.step ∧
    (advance cfg engine nc u s).s.step = s.step ∧
    1 ≤ (⌈s.step / 300⌉).toNat := by
  cases hcnt : advCounts u with
  | raised e =>
    have hadv : advance cfg engine nc u s = ⟨.raised e, s, nc, [], []⟩ := by
      simp [advance, hcnt]
    rw [hadv] at h
    simp at h
  | ret c =>
    obtain ⟨cc, hcv, cv⟩ := c
    cases hloop : advLoop cfg engine u cc hcv cv s.start_time s.step
        ((⌈s.step / 300⌉).toNat) (List.range ((⌈s.step / 300⌉).toNat)) s nc [] [] none with
    | early tr s2 nc2 ws ts =>
      have hadv : advance cfg engine nc u s = ⟨.ret tr, s2, nc2, ws, ts⟩ := by
        simp [advance, hcnt, hloop]
      rw [hadv] at h
      have h2 : tr = t := by injection h
      have h400 := (advLoop_early_facts _ _ _ _ _ _ _ _ _ _ _ hloop).1
      rw [h2] at h400
      omega
    | err e s2 nc2 ws ts =>
      have hadv : advance cfg engine nc u s = ⟨.raised e, s2, nc2, ws, ts⟩ := by
        simp [advance, hcnt, hloop]
      rw [hadv] at h
      simp at h
    | done s2 nc2 ws ts res =>
      cases res with
      | none =>
        have hadv : advance cfg engine nc u s =
            ⟨.raised (.nameError "res"), s2, nc2, ws, ts⟩ := by
          simp [advance, hcnt, hloop]
        rw [hadv] at h
        simp at h
      | some out =>
        have hadv : advance cfg engine nc u s =
            ⟨.ret ⟨200, "Advanced simulation successfully.",
              some (fullState { store_results out true s2 with
                start_time := (store_results out true s2).final_time_itr })⟩,
             { store_results out true s2 with
               start_time := (store_results out true s2).final_time_itr },
             nc2, ws, ts⟩ := by
          simp [advance, hcnt, hloop]
        obtain ⟨f1, f2, f3, f4, f5, f6, f7, f8, f9⟩ :=
          advLoop_done_facts _ _ _ _ _ _ _ _ _ _ _ hloop
        rcases f9 with ⟨_, _, _, hres⟩ | ⟨j, out2, hj, hres, hP, hfin, hfmu⟩
        · exact absurd hres (by simp)
        · have hn1 : 1 ≤ (⌈s.step / 300⌉).toNat := by
            rcases Nat.eq_zero_or_pos ((⌈s.step / 300⌉).toNat) with h0 | h1
            · rw [h0] at hj; simp at hj
            · exact h1
          rw [range_getLast? hn1] at hj
          have hjval : j = (⌈s.step / 300⌉).toNat - 1 := by injection hj with hj2; omega
          subst hjval
          rw [show (winOf s.start_time s.step ((⌈s.step / 300⌉).toNat)
              (((⌈s.step / 300⌉).toNat) - 1)).2 = s.start_time + s.step by
            simp [winOf]] at hfin
          rw [hadv]
          refine ⟨?_, ?_, ?_, hn1⟩
          · rw [f8]; rfl
          · show (store_results out true s2).final_time_itr = s.start_time + s.step
            show s2.final_time_itr = s.start_time + s.step
            exact hfin
          · show (store_results out true s2).step = s.step
            exact f1

theorem stdWindows_durations (st0 : ℚ) (k : ℕ) (hk : 1 ≤ k) :
    (stdWindows st0 (300 * k) k).map (fun w => w.2 - w.1) =
      List.replicate k (300 : ℚ) := by
  rw [List.eq_replicate_iff]
  constructor
  · simp [stdWindows, wmap]
  · intro b hb
    simp only [stdWindows, wmap, List.map_map, List.mem_map, List.mem_range,
      Function.comp] at hb
    obtain ⟨i, hik, hbi⟩ := hb
    subst hbi
    by_cases hi : i < k - 1
    · simp only [winOf, if_pos hi]
      ring
    · simp only [winOf, if_neg hi]
      have hieq : i = k - 1 := by omega
      subst hieq
      have hcast : ((k - 1 : ℕ) : ℚ) = (k : ℚ) - 1 := by
        push_cast [Nat.cast_sub hk]
        ring
      rw [hcast]
      ring

/-- Claim C2: a successful advance with a valid step 300 k runs exactly
ceil(step / 300) = k sub-steps whose windows tile
[start_time, start_time + step]; every sub-step lasts 300 s (the final
one, sized to step minus 300 (k-1), equals 300 as well), the durations
sum to step exactly, and on success the clock advances by exactly step;
iterating k successful advance calls at step 300 moves the clock by
300 k. -/
theorem claim_C2 :
    (∀ cfg engine nc u (s : State) (k : ℕ) (t : Triple), 1 ≤ k →
      s.step = 300 * k →
      (advance cfg engine nc u s).out = .ret t → t.status = 200 →
      (⌈s.step / 300⌉).toNat = k ∧
      (advance cfg engine nc u s).windows = stdWindows s.start_time s.step k ∧
      substepDurations (advance cfg engine nc u s) = List.replicate k (300 : ℚ) ∧
      (substepDurations (advance cfg engine nc u s)).sum = s.step ∧
      s.step - 300 * ((k : ℚ) - 1) = 300 ∧
      (advance cfg engine nc u s).s.start_time = s.start_time + s.step) ∧
    (∀ cfg engine (k : ℕ) nc (s s1 : State) (nc1 : ℕ), s.step = 300 →
      advanceK cfg engine k nc s = some (s1, nc1) →
      s1.start_time = s.start_time + 300 * k) := by
  constructor
  · intro cfg engine nc u s k t hk hstep h h200
    have hn : (⌈s.step / 300⌉).toNat = k := by
      rw [hstep]
      have hq : (300 * (k : ℚ)) / 300 = (k : ℚ) := by
        rw [mul_comm, mul_div_assoc]
        norm_num
      rw [hq]
      simp
    obtain ⟨hw, hstart, hstep', hn1⟩ := advance_ret200_facts h h200
    rw [hn] at hw
    refine ⟨hn, hw, ?_, ?_, ?_, hstart⟩
    · show (advance cfg engine nc u s).windows.map (fun w => w.2 - w.1) = _
      rw [hw, hstep]
      exact stdWindows_durations s.start_time k hk
    · show ((advance cfg engine nc u s).windows.map (fun w => w.2 - w.1)).sum = _
      rw [hw, hstep, stdWindows_durations s.start_time k hk]
      simp [List.sum_replicate, nsmul_eq_mul]
      ring
    · rw [hstep]
      ring
  · intro cfg engine k
    induction k with
    | zero =>
      intro nc s s1 nc1 hstep h
      simp only [advanceK, Option.some.injEq, Prod.mk.injEq] at h
      obtain ⟨rfl, rfl⟩ := h
      simp
    | succ k ih =>
      intro nc s s1 nc1 hstep h
      simp only [advanceK] at h
      cases hro : (advance cfg engine nc [] s).out with
      | raised e => rw [hro] at h; simp at h
      | ret t =>
        simp only [hro] at h
        by_cases h200 : t.status = 200
        · rw [if_pos h200] at h
          obtain ⟨hw, hstart, hstep', hn1⟩ := advance_ret200_facts hro h200
          have hstep2 : (advance cfg engine nc [] s).s.step = 300 := by
            rw [hstep', hstep]
          have hrec := ih (advance cfg engine nc [] s).ncalls
            (advance cfg engine nc [] s).s s1 nc1 hstep2 h
          rw [hrec, hstart, hstep]
          push_cast
          ring
        · rw [if_neg h200] at h
          simp at h

/-- Witness for claim C2: one concrete successful advance with step 300
and one iterated call, reached through the theorem. -/
theorem claim_C2_witness :
    (⌈s0.step / 300⌉).toNat = 1 ∧
    (advance cfg0 engine0 0 [] s0).windows = stdWindows s0.start_time s0.step 1 ∧
    substepDurations (advance cfg0 engine0 0 [] s0) = List.replicate 1 (300 : ℚ) ∧
    s0adv.start_time = s0.start_time + 300 * ((1 : ℕ) : ℚ) := by
  have hn : ((⌈s0.step / 300⌉).toNat) = 1 := by norm_num [s0]
  have hadv : advance cfg0 engine0 0 [] s0 =
      ⟨.ret ⟨200, "Advanced simulation successfully.", some (fullState s0adv)⟩,
       s0adv, 1, [(600, 900)], [none]⟩ := by
    norm_num [advance, advCounts_nil, hn, range_one, advLoop, substepInput_nil,
      engineStep, engine0, store_results, pchiSum, s0, s0adv]
  have hout : (advance cfg0 engine0 0 [] s0).out =
      .ret ⟨200, "Advanced simulation successfully.", some (fullState s0adv)⟩ := by
    rw [hadv]
  have h1 := claim_C2.1 cfg0 engine0 0 [] s0 1
    ⟨200, "Advanced simulation successfully.", some (fullState s0adv)⟩
    le_rfl (by norm_num [s0]) hout rfl
  have hK : advanceK cfg0 engine0 1 0 s0 = some (s0adv, 1) := by
    simp [advanceK, hadv]
  have h2 := claim_C2.2 cfg0 engine0 1 0 s0 s0adv 1 rfl hK
  exact ⟨h1.1, h1.2.1, h1.2.2.1, h2⟩

/-- Claim C8 (amended): with an empty control mapping advance passes
input_object = None to the engine: no input trajectory is composed and
the disturbance table is never consulted, so the call does not depend on
the configuration at all; with step 300 it succeeds exactly when the
engine call (or its single retry) succeeds, whether or not a disturbance
row exists for the sub-step timestamp. -/
theorem claim_C8 :
    (∀ cfg cfg2 engine nc s,
      advance cfg engine nc [] s = advance cfg2 engine nc [] s) ∧
    (∀ cfg engine nc (s : State) out, s.step = 300 → engine nc = .ok out →
      statusOf (advance cfg engine nc [] s).out = some 200 ∧
      (advance cfg engine nc [] s).trajs = [none]) ∧
    (∀ cfg engine nc (s : State), s.step = 300 → engine nc = .fail →
      engine (nc + 1) = .fail →
      statusOf (advance cfg engine nc [] s).out = none) := by
  refine ⟨?_, ?_, ?_⟩
  · intro cfg cfg2 engine nc s
    simp only [advance, advCounts_nil]
    rw [advLoop_nilu_cfg cfg cfg2]
  · intro cfg engine nc s out hstep hok
    have hn := ceil_step_300 hstep
    simp [advance, advCounts_nil, hn, range_one, advLoop, substepInput_nil, engineStep,
      hok, statusOf]
  · intro cfg engine nc s hstep h1 h2
    have hn := ceil_step_300 hstep
    simp [advance, advCounts_nil, hn, range_one, advLoop, substepInput_nil, engineStep,
      h1, h2, statusOf]

/-- Counterexample to claim C8 as stated: with no disturbance row for
the sub-step timestamp and an empty control mapping, advance still
succeeds with status 200, and the sub-step composed no trajectory. -/
theorem claim_C8_counterexample :
    cfgNoDist.disturbance_data = [] ∧
    statusOf (advance cfgNoDist engine0 0 [] s0).out = some 200 ∧
    (advance cfgNoDist engine0 0 [] s0).trajs = [none] := by
  have hn : ((⌈s0.step / 300⌉).toNat) = 1 := by norm_num [s0]
  refine ⟨rfl, ?_, ?_⟩ <;>
    simp [advance, advCounts_nil, hn, range_one, advLoop, substepInput_nil, engineStep,
      engine0, statusOf]

/-- Witness for claim C8: the success limb instantiated at a concrete
engine and state, reached through the theorem. -/
theorem claim_C8_witness :
    statusOf (advance cfg0 engine0 3 [] s0).out = some 200 ∧
    (advance cfg0 engine0 3 [] s0).trajs = [none] :=
  claim_C8.2.1 cfg0 engine0 3 s0 (fun _ => 0) rfl rfl

theorem validateInit_error {sv ev : CtrlVal} {t : Triple}
    (h : validateInit sv ev = .error t) :
    t.status = 400 ∧ t.payload = none ∧ t.message ≠ "" := by
  unfold validateInit at h
  repeat' split at h
  all_goals
    first
    | (injection h with h2; rw [← h2]; exact ⟨rfl, rfl, by decide⟩)
    | injection h

/-- Claim C6: the carried cumulative chiller power is set at the end of
every sub-step to the sum of the six per-chiller powers of the final
sample of that sub-step, is never reset within advance (a failing
sub-step leaves the value of the previous one), and is reset to 0 by
every successful initialize; set_step leaves it alone. -/
theorem claim_C6 :
    (∀ cfg engine nc sv ev s t s1 nc1,
      initializeCase cfg engine nc sv ev s = (.ret t, s1, nc1) → t.status = 200 →
      s1.P_chillers_sum = 0) ∧
    (∀ cfg engine nc (s : State) out, s.step = 300 → engine nc = .ok out →
      (advance cfg engine nc [] s).s.P_chillers_sum = pchiSum out) ∧
    (∀ cfg engine nc (s : State) out1 out2, s.step = 600 →
      engine nc = .ok out1 → engine (nc + 1) = .ok out2 →
      (advance cfg engine nc [] s).s.P_chillers_sum = pchiSum out2) ∧
    (∀ cfg engine nc (s : State), s.step = 300 → engine nc = .fail →
      engine (nc + 1) = .fail →
      (advance cfg engine nc [] s).s.P_chillers_sum = s.P_chillers_sum) ∧
    (∀ v s, (set_step v s).2.P_chillers_sum = s.P_chillers_sum) := by
  refine ⟨?_, ?_, ?_, ?_, ?_⟩
  · intro cfg engine nc sv ev s t s1 nc1 h h200
    simp only [initializeCase] at h
    cases hv : validateInit sv ev with
    | error te =>
      rw [hv] at h
      simp only [Prod.mk.injEq, Outcome.ret.injEq] at h
      obtain ⟨rfl, rfl, rfl⟩ := h
      have h400 := (validateInit_error hv).1
      omega
    | ok stEn =>
      obtain ⟨st, en⟩ := stEn
      rw [hv] at h
      by_cases hst : st = 0
      · simp only [if_pos hst, Prod.mk.injEq, Outcome.ret.injEq] at h
        obtain ⟨rfl, rfl, rfl⟩ := h
        simp [initilize_data]
      · simp only [if_neg hst] at h
        cases hw : warmupTraj cfg st with
        | raised e => rw [hw] at h; simp at h
        | ret tr =>
          rw [hw] at h
          cases he : engine nc with
          | fail =>
            rw [he] at h
            simp only [Prod.mk.injEq, Outcome.ret.injEq] at h
            obtain ⟨rfl, rfl, rfl⟩ := h
            simp at h200
          | ok out =>
            rw [he] at h
            simp only [Prod.mk.injEq, Outcome.ret.injEq] at h
            obtain ⟨rfl, rfl, rfl⟩ := h
            simp [store_results, initilize_data]
  · intro cfg engine nc s out hstep hok
    have hn := ceil_step_300 hstep
    simp [advance, advCounts_nil, hn, range_one, advLoop, substepInput_nil, engineStep, hok,
      store_results]
  · intro cfg engine nc s out1 out2 hstep h1 h2
    have hn := ceil_step_600 hstep
    simp [advance, advCounts_nil, hn, range_two, advLoop, substepInput_nil, engineStep, h1, h2,
      store_results]
  · intro cfg engine nc s hstep h1 h2
    have hn := ceil_step_300 hstep
    simp [advance, advCounts_nil, hn, range_one, advLoop, substepInput_nil, engineStep, h1, h2]
  · intro v s
    cases hv : v.toFloat with
    | none => simp [set_step, hv]
    | some q =>
      by_cases h1 : q < 0
      · simp [set_step, hv, h1]
      · by_cases h2 : mult300 q
        · simp [set_step, hv, h1, h2]
        · simp [set_step, hv, h1, h2]

/-- The ways an argument pair can be invalid for initialize, as the
claim enumerates them: non-numeric, negative, not a multiple of 300,
end time not after start time, or end time beyond the horizon. -/
def invalidInitArgs (sv ev : CtrlVal) : Prop :=
  sv.toFloat = none ∨ ev.toFloat = none ∨
  (∃ q, sv.toFloat = some q ∧ (q < 0 ∨ mult300 q = false)) ∨
  (∃ q, ev.toFloat = some q ∧ (q < 0 ∨ mult300 q = false)) ∨
  (∃ qs qe, sv.toFloat = some qs ∧ ev.toFloat = some qe ∧
    (qe ≤ qs ∨ 30099300 < qe))

theorem validateInit_ok_not_invalid {sv ev : CtrlVal} {st en : ℚ}
    (h : validateInit sv ev = .ok (st, en)) : ¬ invalidInitArgs sv ev := by
  unfold validateInit at h
  cases hsv : sv.toFloat with
  | none => simp only [hsv] at h; exact absurd h (by simp)
  | some st0 =>
    simp only [hsv] at h
    by_cases h1 : st0 < 0
    · rw [if_pos h1] at h; exact absurd h (by simp)
    · rw [if_neg h1] at h
      by_cases h2 : mult300 st0 = true
      · have h2n : ¬ ¬ (mult300 st0 = true) := not_not_intro h2
        rw [if_neg h2n] at h
        cases hev : ev.toFloat with
        | none => simp only [hev] at h; exact absurd h (by simp)
        | some en0 =>
          simp only [hev] at h
          by_cases h3 : en0 < 0
          · rw [if_pos h3] at h; exact absurd h (by simp)
          · rw [if_neg h3] at h
            by_cases h4 : en0 ≤ st0
            · rw [if_pos h4] at h; exact absurd h (by simp)
            · rw [if_neg h4] at h
              by_cases h5 : mult300 en0 = true
              · have h5n : ¬ ¬ (mult300 en0 = true) := not_not_intro h5
                rw [if_neg h5n] at h
                by_cases h6 : 30099300 < en0
                · rw [if_pos h6] at h; exact absurd h (by simp)
                · rw [if_neg h6] at h
                  intro hinv
                  rcases hinv with hn | hn | ⟨q, hq, hbad⟩ | ⟨q, hq, hbad⟩ |
                    ⟨qs, qe, hqs, hqe, hbad⟩
                  · rw [hsv] at hn; exact Option.noConfusion hn
                  · rw [hev] at hn; exact Option.noConfusion hn
                  · rw [hsv] at hq
                    obtain rfl : st0 = q := by injection hq
                    rcases hbad with hb | hb
                    · exact h1 hb
                    · rw [h2] at hb; exact Bool.noConfusion hb
                  · rw [hev] at hq
                    obtain rfl : en0 = q := by injection hq
                    rcases hbad with hb | hb
                    · exact h3 hb
                    · rw [h5] at hb; exact Bool.noConfusion hb
                  · rw [hsv] at hqs
                    rw [hev] at hqe
                    obtain rfl : st0 = qs := by injection hqs
                    obtain rfl : en0 = qe := by injection hqe
                    rcases hbad with hb | hb
                    · exact h4 hb
                    · exact h6 hb
              · rw [if_pos (by simpa using h5)] at h; exact absurd h (by simp)
      · rw [if_pos (by simpa using h2)] at h
        exact absurd h (by simp)

/-- Claim C1 (amended): every invalid argument pair makes initialize
return a 400 triple with a descriptive message and a null payload, and
leaves the clock fields untouched; but the session data is not left
unchanged: the channel histories are cleared and the carried cumulative
chiller power is reset to 0, because the data reset of __initilize_data
runs before the validation. -/
theorem claim_C1 (cfg : Config) (engine : ℕ → EngineRes) (nc : ℕ)
    (sv ev : CtrlVal) (s : State) (hinv : invalidInitArgs sv ev) :
    statusOf (initializeCase cfg engine nc sv ev s).1 = some 400 ∧
    (∀ t, (initializeCase cfg engine nc sv ev s).1 = .ret t →
      t.payload = none ∧ t.message ≠ "") ∧
    (initializeCase cfg engine nc sv ev s).2.1 = initilize_data cfg s ∧
    (initializeCase cfg engine nc sv ev s).2.2 = nc ∧
    (initializeCase cfg engine nc sv ev s).2.1.step = s.step ∧
    (initializeCase cfg engine nc sv ev s).2.1.start_time = s.start_time ∧
    (initializeCase cfg engine nc sv ev s).2.1.end_time = s.end_time ∧
    (initializeCase cfg engine nc sv ev s).2.1.y_store = initStore cfg.output_names ∧
    (initializeCase cfg engine nc sv ev s).2.1.u_store =
      initStore cfg.input_names_without_distubance ∧
    (initializeCase cfg engine nc sv ev s).2.1.P_chillers_sum = 0 := by
  cases hv : validateInit sv ev with
  | ok p =>
    obtain ⟨st, en⟩ := p
    exact absurd hinv (validateInit_ok_not_invalid hv)
  | error te =>
    have hte := validateInit_error hv
    have hrun : initializeCase cfg engine nc sv ev s =
        (.ret te, initilize_data cfg s, nc) := by
      simp [initializeCase, hv]
    rw [hrun]
    refine ⟨by simp [statusOf, hte.1], ?_, rfl, rfl, rfl, rfl, rfl, rfl, rfl, rfl⟩
    intro t ht
    obtain rfl : te = t := by injection ht
    exact ⟨hte.2.1, hte.2.2⟩

/-- Counterexample to claim C1 as stated: a negative start time is
rejected with status 400, yet the session state is not what it was
before the call: the carried chiller power drops from 7 to 0 and the
non-empty channel histories are cleared. -/
theorem claim_C1_counterexample :
    statusOf (initializeCase cfg0 engine0 0 (.num (-300)) (.num 30099300) s0).1 =
      some 400 ∧
    s0.P_chillers_sum = 7 ∧
    (initializeCase cfg0 engine0 0 (.num (-300)) (.num 30099300) s0).2.1.P_chillers_sum = 0 ∧
    s0.y_store = [("time", [300]), ("Pchi1", [12])] ∧
    (initializeCase cfg0 engine0 0 (.num (-300)) (.num 30099300) s0).2.1.y_store =
      [("time", [])] ∧
    ¬ ((7 : ℚ) = 0) := by
  refine ⟨?_, rfl, ?_, rfl, ?_, by norm_num⟩ <;> decide

/-- Witness for claim C1: the theorem applied to the same invalid pair. -/
theorem claim_C1_witness :
    statusOf (initializeCase cfg0 engine0 2 (.num (-300)) (.num 30099300) s0).1 =
      some 400 ∧
    (initializeCase cfg0 engine0 2 (.num (-300)) (.num 30099300) s0).2.1 =
      initilize_data cfg0 s0 ∧
    (initializeCase cfg0 engine0 2 (.num (-300)) (.num 30099300) s0).2.1.P_chillers_sum = 0 :=
  have h := claim_C1 cfg0 engine0 2 (.num (-300)) (.num 30099300) s0
    (Or.inr (Or.inr (Or.inl ⟨-300, rfl, Or.inl (by decide)⟩)))
  ⟨h.1, h.2.2.1, h.2.2.2.2.2.2.2.2.2⟩

/-- Claim C10: a successful initialize(0) does not assign the clock
fields: start_time and end_time keep their prior values, so a subsequent
advance resumes from the pre-initialize simulation time; the channel
histories and the carried power are nonetheless reset. -/
theorem claim_C10 (cfg : Config) (engine : ℕ → EngineRes) (nc : ℕ)
    (ev : CtrlVal) (s : State) (en : ℚ) (hev : ev.toFloat = some en)
    (hpos : 0 < en) (hmul : mult300 en = true) (hmax : en ≤ 30099300) :
    initializeCase cfg engine nc (.num 0) ev s =
      (.ret ⟨200, "Simulation initialized successfully to 0s.", some (obs0Payload cfg)⟩,
       { initilize_data cfg s with initialize_fmu := true }, nc) ∧
    (initializeCase cfg engine nc (.num 0) ev s).2.1.start_time = s.start_time ∧
    (initializeCase cfg engine nc (.num 0) ev s).2.1.end_time = s.end_time ∧
    (initializeCase cfg engine nc (.num 0) ev s).2.1.step = s.step ∧
    (initializeCase cfg engine nc (.num 0) ev s).2.1.y_store = initStore cfg.output_names ∧
    (initializeCase cfg engine nc (.num 0) ev s).2.1.P_chillers_sum = 0 ∧
    (s.step = 300 →
      (advance cfg engine nc []
          (initializeCase cfg engine nc (.num 0) ev s).2.1).windows =
        [(s.start_time, s.start_time + 300)]) := by
  have hm0 : mult300 (0 : ℚ) = true := by decide
  have hv : validateInit (.num 0) ev = .ok (0, en) := by
    have g1 : ¬ ((0 : ℚ) < 0) := by norm_num
    have g2 : ¬ ¬ (mult300 (0 : ℚ) = true) := not_not_intro hm0
    have g3 : ¬ (en < 0) := not_lt.mpr hpos.le
    have g4 : ¬ (en ≤ (0 : ℚ)) := not_le.mpr hpos
    have g5 : ¬ ¬ (mult300 en = true) := not_not_intro hmul
    have g6 : ¬ ((30099300 : ℚ) < en) := not_lt.mpr hmax
    unfold validateInit
    simp only [show (CtrlVal.num 0).toFloat = some (0 : ℚ) from rfl, hev]
    rw [if_neg g1, if_neg g2, if_neg g3, if_neg g4, if_neg g5, if_neg g6]
  have hrun : initializeCase cfg engine nc (.num 0) ev s =
      (.ret ⟨200, "Simulation initialized successfully to 0s.", some (obs0Payload cfg)⟩,
       { initilize_data cfg s with initialize_fmu := true }, nc) := by
    simp [initializeCase, hv]
  rw [hrun]
  refine ⟨rfl, by simp [initilize_data], by simp [initilize_data],
    by simp [initilize_data], by simp [initilize_data], by simp [initilize_data], ?_⟩
  intro hstep
  have hstep1 : ({ initilize_data cfg s with initialize_fmu := true } : State).step = 300 := by
    simp [initilize_data, hstep]
  have hn := ceil_step_300 hstep1
  have hst : ({ initilize_data cfg s with initialize_fmu := true } : State).start_time =
      s.start_time := by simp [initilize_data]
  rcases hes : engineStep engine nc with ⟨o, nc1⟩
  cases o with
  | raised e =>
    simp [advance, advCounts_nil, hn, range_one, advLoop, substepInput_nil, hes, hst, hstep1]
    simp [initilize_data, hstep]
  | ret out =>
    simp [advance, advCounts_nil, hn, range_one, advLoop, substepInput_nil, hes, hst, hstep1]
    simp [initilize_data, hstep]

/-- Witness for claim C10: initialize(0) on a state whose clock stands
at 600 s keeps start_time 600, and the following advance window starts
at 600, not at 0. -/
theorem claim_C10_witness :
    initializeCase cfg0 engine0 0 (.num 0) (.num 300) s0 =
      (.ret ⟨200, "Simulation initialized successfully to 0s.", some (obs0Payload cfg0)⟩,
       { initilize_data cfg0 s0 with initialize_fmu := true }, 0) ∧
    (initializeCase cfg0 engine0 0 (.num 0) (.num 300) s0).2.1.start_time = s0.start_time ∧
    (advance cfg0 engine0 0 []
        (initializeCase cfg0 engine0 0 (.num 0) (.num 300) s0).2.1).windows =
      [(s0.start_time, s0.start_time + 300)] :=
  have h := claim_C10 cfg0 engine0 0 (.num 300) s0 300 rfl (by decide) (by decide)
    (by decide)
  ⟨h.1, h.2.1, h.2.2.2.2.2.2 rfl⟩

theorem initializeCase_ret200_y_store {cfg : Config} {engine : ℕ → EngineRes}
    {nc : ℕ} {sv ev : CtrlVal} {s : State} {t : Triple} {s1 : State} {nc1 : ℕ}
    (h : initializeCase cfg engine nc sv ev s = (.ret t, s1, nc1))
    (h200 : t.status = 200) :
    s1.y_store = initStore cfg.output_names := by
  simp only [initializeCase] at h
  cases hv : validateInit sv ev with
  | error te =>
    rw [hv] at h
    simp only [Prod.mk.injEq, Outcome.ret.injEq] at h
    obtain ⟨rfl, rfl, rfl⟩ := h
    have h400 := (validateInit_error hv).1
    omega
  | ok stEn =>
    obtain ⟨st, en⟩ := stEn
    rw [hv] at h
    by_cases hst : st = 0
    · simp only [if_pos hst, Prod.mk.injEq, Outcome.ret.injEq] at h
      obtain ⟨rfl, rfl, rfl⟩ := h
      simp [initilize_data]
    · simp only [if_neg hst] at h
      cases hw : warmupTraj cfg st with
      | raised e => rw [hw] at h; simp at h
      | ret tr =>
        rw [hw] at h
        cases he : engine nc with
        | fail =>
          rw [he] at h
          simp only [Prod.mk.injEq, Outcome.ret.injEq] at h
          obtain ⟨rfl, rfl, rfl⟩ := h
          simp at h200
        | ok out =>
          rw [he] at h
          simp only [Prod.mk.injEq, Outcome.ret.injEq] at h
          obtain ⟨rfl, rfl, rfl⟩ := h
          simp [store_results, initilize_data]

/-- Claim C7 (amended): after any successful initialize the queryable
channel histories are empty, so get_results(['time'], a, b) does not
return one sample: the window computation fails on the empty stored time
list (min of an empty sequence) and get_results returns a 500 with a
null payload. -/
theorem claim_C7 (cfg : Config) (engine : ℕ → EngineRes) (nc : ℕ)
    (sv ev : CtrlVal) (s : State) (t : Triple) (s1 : State) (nc1 : ℕ)
    (h : initializeCase cfg engine nc sv ev s = (.ret t, s1, nc1))
    (h200 : t.status = 200) (a b : ℚ) :
    get_results ["time"] (.num a) (.num b) s1 =
      .ret ⟨500, "Failed query simulation results.", none⟩ := by
  have hys := initializeCase_ret200_y_store h h200
  unfold get_results
  simp only [show (CtrlVal.num a).toFloat = some a from rfl,
    show (CtrlVal.num b).toFloat = some b from rfl]
  rw [hys]
  simp [buildPayload, aLookup, initStore, aInsert, windowSlice, pyMin, pyMax, hys]

/-- Counterexample to claim C7 as stated: a successful initialize(0)
followed by get_results(['time'], 0, 0) returns status 500 with a null
payload, not a single-sample time trajectory. -/
theorem claim_C7_counterexample :
    statusOf (initializeCase cfg0 engine0 0 (.num 0) (.num 300) s0).1 = some 200 ∧
    get_results ["time"] (.num 0) (.num 0)
        (initializeCase cfg0 engine0 0 (.num 0) (.num 300) s0).2.1 =
      .ret ⟨500, "Failed query simulation results.", none⟩ := by
  constructor <;> decide

/-- Witness for claim C6 at concrete inputs: reset by initialize, the
per-substep update, and preservation by set_step. -/
theorem claim_C6_witness :
    sInit0.P_chillers_sum = 0 ∧
    (advance cfg0 engine0 0 [] s0).s.P_chillers_sum = pchiSum (fun _ => 0) ∧
    (set_step (.num 600) s0).2.P_chillers_sum = s0.P_chillers_sum :=
  ⟨claim_C6.1 cfg0 engine0 0 (.num 0) (.num 300) s0 tInit0 sInit0 0 (by decide) rfl,
   claim_C6.2.1 cfg0 engine0 0 s0 (fun _ => 0) rfl rfl,
   claim_C6.2.2.2.2 (.num 600) s0⟩

/-- Witness for claim C7: the amended theorem applied after a concrete
successful initialize(0). -/
theorem claim_C7_witness :
    get_results ["time"] (.num 5) (.num 7) sInit0 =
      .ret ⟨500, "Failed query simulation results.", none⟩ :=
  claim_C7 cfg0 engine0 0 (.num 0) (.num 300) s0 tInit0 sInit0 0 (by decide) rfl 5 7

theorem composeLoop_Mchw_notin {cfg : Config} {u : List (String × CtrlVal)}
    {t0 : ℚ} :
    ∀ (keys : List String) (acc acc' : CompAcc), "Mchw" ∉ keys →
      composeLoop cfg u t0 keys acc = .ok acc' → acc'.Mchw = acc.Mchw := by
  intro keys
  induction keys with
  | nil =>
    intro acc acc' _ h
    simp only [composeLoop, Except.ok.injEq] at h
    rw [← h]
  | cons key rest ih =>
    intro acc acc' hnot h
    have hkey : key ≠ "Mchw" := fun he => hnot (he ▸ List.mem_cons_self _ _)
    have hrest : "Mchw" ∉ rest := fun hm => hnot (List.mem_cons_of_mem _ hm)
    rw [composeLoop] at h
    repeat' split at h
    all_goals
      first
      | (simp at h; done)
      | exact ih _ _ hrest h
      | rw [ih _ _ hrest h]

theorem composeLoop_Tchwr_notin {cfg : Config} {u : List (String × CtrlVal)}
    {t0 : ℚ} :
    ∀ (keys : List String) (acc acc' : CompAcc), "Tchw_r" ∉ keys →
      composeLoop cfg u t0 keys acc = .ok acc' → acc'.Tchw_r = acc.Tchw_r := by
  intro keys
  induction keys with
  | nil =>
    intro acc acc' _ h
    simp only [composeLoop, Except.ok.injEq] at h
    rw [← h]
  | cons key rest ih =>
    intro acc acc' hnot h
    have hkey : key ≠ "Tchw_r" := fun he => hnot (he ▸ List.mem_cons_self _ _)
    have hrest : "Tchw_r" ∉ rest := fun hm => hnot (List.mem_cons_of_mem _ hm)
    rw [composeLoop] at h
    repeat' split at h
    all_goals
      first
      | (simp at h; done)
      | exact ih _ _ hrest h
      | rw [ih _ _ hrest h]

theorem composeLoop_Tset_notin {cfg : Config} {u : List (String × CtrlVal)}
    {t0 : ℚ} :
    ∀ (keys : List String) (acc acc' : CompAcc), "Tchws_set_CHI" ∉ keys →
      composeLoop cfg u t0 keys acc = .ok acc' → acc'.Tset = acc.Tset := by
  intro keys
  induction keys with
  | nil =>
    intro acc acc' _ h
    simp only [composeLoop, Except.ok.injEq] at h
    rw [← h]
  | cons key rest ih =>
    intro acc acc' hnot h
    have hkey : key ≠ "Tchws_set_CHI" := fun he => hnot (he ▸ List.mem_cons_self _ _)
    have hrest : "Tchws_set_CHI" ∉ rest := fun hm => hnot (List.mem_cons_of_mem _ hm)
    rw [composeLoop] at h
    repeat' split at h
    all_goals
      first
      | (simp at h; done)
      | exact ih _ _ hrest h
      | rw [ih _ _ hrest h]

theorem composeLoop_Tset_none {cfg : Config} {u : List (String × CtrlVal)}
    {t0 : ℚ} (hu : aLookup u "Tchws_set_CHI" = none) :
    ∀ (keys : List String) (acc acc' : CompAcc),
      composeLoop cfg u t0 keys acc = .ok acc' → acc'.Tset = acc.Tset := by
  intro keys
  induction keys with
  | nil =>
    intro acc acc' h
    simp only [composeLoop, Except.ok.injEq] at h
    rw [← h]
  | cons key rest ih =>
    intro acc acc' h
    have hkey : key ≠ "Tchws_set_CHI" ∨ aLookup u key = none := by
      by_cases hk : key = "Tchws_set_CHI"
      · right; rw [hk]; exact hu
      · left; exact hk
    rw [composeLoop] at h
    repeat' split at h
    all_goals
      first
      | (simp at h; done)
      | exact ih _ _ h
      | (rw [ih _ _ h]; done)
      | (rw [ih _ _ h]; simp_all)

theorem composeLoop_Mchw_found {cfg : Config} {u : List (String × CtrlVal)}
    {t0 : ℚ} {v : ℚ} (hu : aLookup u "Mchw" = none)
    (hd : distLookup cfg t0 "Mchw" = some v) :
    ∀ (keys : List String) (acc acc' : CompAcc), keys.Nodup →
      "Mchw" ∈ keys →
      composeLoop cfg u t0 keys acc = .ok acc' → acc'.Mchw = some v := by
  intro keys
  induction keys with
  | nil =>
    intro acc acc' _ hmem _
    exact absurd hmem (by simp)
  | cons key rest ih =>
    intro acc acc' hnd hmem h
    by_cases hkey : key = "Mchw"
    · subst hkey
      have hrest : "Mchw" ∉ rest := (List.nodup_cons.mp hnd).1
      rw [composeLoop] at h
      rw [if_neg (by simp [hu])] at h
      rw [if_pos (by decide : "Mchw" ∈ disturbance_var)] at h
      rw [hd] at h
      rw [composeLoop_Mchw_notin _ _ _ hrest h]
      simp
    · have hrest : "Mchw" ∈ rest := by
        rcases List.mem_cons.mp hmem with he | hm
        · exact absurd he.symm hkey
        · exact hm
      have hnd' : rest.Nodup := (List.nodup_cons.mp hnd).2
      rw [composeLoop] at h
      repeat' split at h
      all_goals
        first
        | (simp at h; done)
        | exact ih _ _ hnd' hrest h

theorem composeLoop_Tchwr_found {cfg : Config} {u : List (String × CtrlVal)}
    {t0 : ℚ} {v : ℚ} (hu : aLookup u "Tchw_r" = none)
    (hd : distLookup cfg t0 "Tchw_r" = some v) :
    ∀ (keys : List String) (acc acc' : CompAcc), keys.Nodup →
      "Tchw_r" ∈ keys →
      composeLoop cfg u t0 keys acc = .ok acc' → acc'.Tchw_r = some v := by
  intro keys
  induction keys with
  | nil =>
    intro acc acc' _ hmem _
    exact absurd hmem (by simp)
  | cons key rest ih =>
    intro acc acc' hnd hmem h
    by_cases hkey : key = "Tchw_r"
    · subst hkey
      have hrest : "Tchw_r" ∉ rest := (List.nodup_cons.mp hnd).1
      rw [composeLoop] at h
      rw [if_neg (by simp [hu])] at h
      rw [if_pos (by decide : "Tchw_r" ∈ disturbance_var)] at h
      rw [hd] at h
      rw [composeLoop_Tchwr_notin _ _ _ hrest h]
      simp
    · have hrest : "Tchw_r" ∈ rest := by
        rcases List.mem_cons.mp hmem with he | hm
        · exact absurd he.symm hkey
        · exact hm
      have hnd' : rest.Nodup := (List.nodup_cons.mp hnd).2
      rw [composeLoop] at h
      repeat' split at h
      all_goals
        first
        | (simp at h; done)
        | exact ih _ _ hnd' hrest h

theorem composeLoop_Tset_found {cfg : Config} {u : List (String × CtrlVal)}
    {t0 : ℚ} {v : ℚ} (hu : aLookup u "Tchws_set_CHI" = some (.num v)) :
    ∀ (keys : List String) (acc acc' : CompAcc), keys.Nodup →
      "Tchws_set_CHI" ∈ keys →
      composeLoop cfg u t0 keys acc = .ok acc' → acc'.Tset = v := by
  intro keys
  induction keys with
  | nil =>
    intro acc acc' _ hmem _
    exact absurd hmem (by simp)
  | cons key rest ih =>
    intro acc acc' hnd hmem h
    by_cases hkey : key = "Tchws_set_CHI"
    · subst hkey
      have hrest : "Tchws_set_CHI" ∉ rest := (List.nodup_cons.mp hnd).1
      rw [composeLoop] at h
      rw [if_pos (by simp [hu])] at h
      rw [hu] at h
      rw [composeLoop_Tset_notin _ _ _ hrest h]
      simp
    · have hrest : "Tchws_set_CHI" ∈ rest := by
        rcases List.mem_cons.mp hmem with he | hm
        · exact absurd he.symm hkey
        · exact hm
      have hnd' : rest.Nodup := (List.nodup_cons.mp hnd).2
      rw [composeLoop] at h
      repeat' split at h
      all_goals
        first
        | (simp at h; done)
        | exact ih _ _ hnd' hrest h

theorem composeLoop_HR_entries {cfg : Config} {u : List (String × CtrlVal)}
    {t0 : ℚ} :
    ∀ (keys : List String) (acc acc' : CompAcc),
      composeLoop cfg u t0 keys acc = .ok acc' →
      ∀ p ∈ acc'.traj, p.1 = "Head_required" →
        p ∈ acc.traj ∨
        ∃ q, p.2 = .num q ∧ aLookup u "Head_required" = some (.num q) := by
  intro keys
  induction keys with
  | nil =>
    intro acc acc' h p hp hname
    simp only [composeLoop, Except.ok.injEq] at h
    exact Or.inl (h ▸ hp)
  | cons key rest ih =>
    intro acc acc' h p hp hname
    rw [composeLoop] at h
    by_cases hc1 : key ≠ "time" ∧ (aLookup u key).isSome = true
    · rw [if_pos hc1] at h
      cases hl : aLookup u key with
      | none => exact absurd (hl ▸ hc1.2) (by simp)
      | some v =>
        cases v with
        | num q =>
          simp only [hl] at h
          rcases ih _ _ h p hp hname with hmem | hq
          · rcases List.mem_append.mp hmem with h1 | h1
            · exact Or.inl h1
            · have hpk : p = (key, .num q) := by simpa using h1
              right
              refine ⟨q, by rw [hpk], ?_⟩
              have hke : key = "Head_required" := by rw [hpk] at hname; exact hname
              rw [← hke]
              exact hl
          · exact Or.inr hq
        | null =>
          simp only [hl] at h
          exact ih _ _ h p hp hname
        | bad =>
          simp only [hl] at h
          simp at h
    · rw [if_neg hc1] at h
      by_cases hc2 : key ∈ disturbance_var
      · rw [if_pos hc2] at h
        cases hd : distLookup cfg t0 key with
        | none => rw [hd] at h; simp at h
        | some v =>
          simp only [hd] at h
          rcases ih _ _ h p hp hname with hmem | hq
          · rcases List.mem_append.mp hmem with h1 | h1
            · exact Or.inl h1
            · have hpk : p = (key, .num v) := by simpa using h1
              have hke : key = "Head_required" := by rw [hpk] at hname; exact hname
              rw [hke] at hc2
              exact absurd hc2 (by decide)
          · exact Or.inr hq
      · rw [if_neg hc2] at h
        exact ih _ _ h p hp hname

theorem composeTrajectory_ok_fields {cfg : Config} {u : List (String × CtrlVal)}
    {cc hc cv P t : ℚ} {o : TrajOut}
    (h : composeTrajectory cfg u cc hc cv P t = .ok o) :
    ∃ acc tr mchw,
      composeLoop cfg u t cfg.input_keys ⟨286.55, none, none, []⟩ = .ok acc ∧
      acc.Tchw_r = some tr ∧ acc.Mchw = some mchw ∧
      o.Tset = acc.Tset ∧ o.Mchw = acc.Mchw ∧ o.Tchw_r = acc.Tchw_r ∧
      o.Mcw = calc_Mcw mchw P tr acc.Tset / 1000 ∧
      o.Head_required = cfg.mlp cc hc cv o.Mcw ∧
      o.traj = acc.traj ++
        [(match aLookup u "Head_required" with
          | some v => ("Head_required", v)
          | none => ("Head_required", .num (cfg.mlp cc hc cv o.Mcw)))] := by
  unfold composeTrajectory at h
  cases hcl : composeLoop cfg u t cfg.input_keys ⟨286.55, none, none, []⟩ with
  | error e => rw [hcl] at h; simp at h
  | ok acc =>
    simp only [hcl] at h
    cases htr : acc.Tchw_r with
    | none => simp only [htr] at h; exact absurd h (by simp)
    | some tr =>
      simp only [htr] at h
      split at h
      · exact absurd h (by simp)
      · cases hm : acc.Mchw with
        | none => simp only [hm] at h; exact absurd h (by simp)
        | some mchw =>
          simp only [hm] at h
          injection h with h2
          subst h2
          exact ⟨acc, tr, mchw, rfl, htr, hm, rfl, hm.symm, htr.symm, rfl, rfl, rfl⟩

theorem advance_single_traj {cfg : Config} {engine : ℕ → EngineRes} {nc : ℕ}
    {u : List (String × CtrlVal)} {s : State} {cc hc cv : ℚ} {o : TrajOut}
    (hne : u ≠ []) (hstep : s.step = 300)
    (hcnt : advCounts u = .ret (cc, hc, cv))
    (hcomp : composeTrajectory cfg u cc hc cv s.P_chillers_sum s.start_time = .ok o) :
    (advance cfg engine nc u s).trajs = [some o] := by
  have hn := ceil_step_300 hstep
  have hne' : u.isEmpty = false := by
    cases u with
    | nil => exact absurd rfl hne
    | cons a l => rfl
  have hsi : substepInput cfg u cc hc cv s.P_chillers_sum s.start_time =
      .ok (some o) := by
    unfold substepInput
    rw [hcomp]
    simp [hne', Except.map]
  rcases hes : engineStep engine nc with ⟨oo, nc2⟩
  cases oo with
  | raised e =>
    simp [advance, hcnt, hn, range_one, advLoop, hsi, hes]
  | ret out =>
    simp [advance, hcnt, hn, range_one, advLoop, hsi, hes]

/-- Claim C3 (amended): in a sub-step with a non-empty control mapping
the cooling-water mass flow handed to the estimator equals the WHOLE sum
(disturbance_chilled_water_massflow + cumulative_chiller_power /
(4200 (Tchw_r - setpoint))) divided by 1000, not the claimed expression
in which only the power term is divided by 1000; the setpoint is 286.55
unless the caller supplies a numeric Tchws_set_CHI value, and the
estimator is applied to exactly that mass flow; advance records this
composition for its sub-step. -/
theorem claim_C3 :
    (∀ (cfg : Config) (u : List (String × CtrlVal)) (cc hc cv P t : ℚ)
      (o : TrajOut) (mchw tr : ℚ),
      cfg.input_keys.Nodup →
      "Mchw" ∈ cfg.input_keys → "Tchw_r" ∈ cfg.input_keys →
      aLookup u "Mchw" = none → aLookup u "Tchw_r" = none →
      distLookup cfg t "Mchw" = some mchw →
      distLookup cfg t "Tchw_r" = some tr →
      composeTrajectory cfg u cc hc cv P t = .ok o →
      o.Head_required = cfg.mlp cc hc cv o.Mcw ∧
      (aLookup u "Tchws_set_CHI" = none →
        o.Tset = 286.55 ∧
        o.Mcw = (mchw + P / (4200 * (tr - 286.55))) / 1000) ∧
      (∀ v, "Tchws_set_CHI" ∈ cfg.input_keys →
        aLookup u "Tchws_set_CHI" = some (.num v) →
        o.Tset = v ∧
        o.Mcw = (mchw + P / (4200 * (tr - v))) / 1000)) ∧
    (∀ cfg engine nc u (s : State) cc hc cv o, u ≠ [] → s.step = 300 →
      advCounts u = .ret (cc, hc, cv) →
      composeTrajectory cfg u cc hc cv s.P_chillers_sum s.start_time = .ok o →
      (advance cfg engine nc u s).trajs = [some o]) := by
  constructor
  · intro cfg u cc hc cv P t o mchw tr hnd hmM hmT huM huT hdM hdT hcomp
    obtain ⟨acc, tr', mchw', hcl, htr', hm', hTset, hMchw, hTchwr, hMcw, hHead, htraj⟩ :=
      composeTrajectory_ok_fields hcomp
    have hm2 := composeLoop_Mchw_found huM hdM _ _ _ hnd hmM hcl
    rw [hm'] at hm2
    have hmeq : mchw' = mchw := by injection hm2
    subst hmeq
    have ht2 := composeLoop_Tchwr_found huT hdT _ _ _ hnd hmT hcl
    rw [htr'] at ht2
    have hteq : tr' = tr := by injection ht2
    subst hteq
    refine ⟨hHead, ?_, ?_⟩
    · intro hnone
      have ht0 := composeLoop_Tset_none hnone _ _ _ hcl
      constructor
      · rw [hTset, ht0]
      · rw [hMcw, ht0]
        rfl
    · intro v hmem hsome
      have ht0 := composeLoop_Tset_found hsome _ _ _ hnd hmem hcl
      exact ⟨by rw [hTset, ht0], by rw [hMcw, ht0]; rfl⟩
  · intro cfg engine nc u s cc hc cv o hne hstep hcnt hcomp
    exact advance_single_traj hne hstep hcnt hcomp

/-- Counterexample to claim C3 as stated: with disturbance mass flow 2,
carried power 4200 and return temperature 288.55 (setpoint defaulted to
286.55), the code passes (2 + 4200 / (4200 * 2)) / 1000 = 1/400 to the
estimator, while the claimed formula gives 2 + (4200 / (4200 * 2)) / 1000
= 4001/2000. -/
theorem claim_C3_counterexample :
    composeTrajectory c3cfg c3u 0 0 0 4200 0 = .ok c3out ∧
    c3out.Mcw = 1 / 400 ∧
    spec_Mcw 2 4200 288.55 286.55 = 4001 / 2000 ∧
    (1 : ℚ) / 400 ≠ 4001 / 2000 := by
  refine ⟨?_, rfl, ?_, ?_⟩
  · norm_num +decide [composeTrajectory, composeLoop, distLookup, qLookup, aLookup,
      disturbance_var, calc_Mcw, c3cfg, c3u, c3out]
  · norm_num [spec_Mcw]
  · norm_num

/-- Witness for claim C3: the amended formula at the concrete inputs of
the counterexample, reached through the theorem. -/
theorem claim_C3_witness :
    c3out.Tset = 286.55 ∧
    c3out.Mcw = (2 + 4200 / (4200 * ((288.55 : ℚ) - 286.55))) / 1000 := by
  have hcomp : composeTrajectory c3cfg c3u 0 0 0 4200 0 = .ok c3out := by
    norm_num +decide [composeTrajectory, composeLoop, distLookup, qLookup, aLookup,
      disturbance_var, calc_Mcw, c3cfg, c3u, c3out]
  have h := (claim_C3.1 c3cfg c3u 0 0 0 4200 0 c3out 2 288.55 (by decide)
    (by decide) (by decide) (by decide) (by decide) rfl rfl
    hcomp).2.1 (by decide)
  exact ⟨h.1, h.2⟩

/-- Claim C4: the Head_required row appended to the composed trajectory
carries the caller-supplied value whenever the control mapping contains
one (every Head_required entry of the trajectory equals it), and
otherwise carries the estimator output on the staging counts and the
computed cooling-water mass flow; advance records this composition for
its sub-step. -/
theorem claim_C4 :
    (∀ (cfg : Config) (u : List (String × CtrlVal)) (cc hc cv P t : ℚ)
      (o : TrajOut) (v : CtrlVal),
      composeTrajectory cfg u cc hc cv P t = .ok o →
      aLookup u "Head_required" = some v →
      (("Head_required", v) ∈ o.traj ∧
       ∀ p ∈ o.traj, p.1 = "Head_required" → p.2 = v)) ∧
    (∀ (cfg : Config) (u : List (String × CtrlVal)) (cc hc cv P t : ℚ)
      (o : TrajOut),
      composeTrajectory cfg u cc hc cv P t = .ok o →
      aLookup u "Head_required" = none →
      (("Head_required", .num (cfg.mlp cc hc cv o.Mcw)) ∈ o.traj ∧
       o.Head_required = cfg.mlp cc hc cv o.Mcw ∧
       ∀ p ∈ o.traj, p.1 = "Head_required" →
         p.2 = .num (cfg.mlp cc hc cv o.Mcw))) ∧
    (∀ cfg engine nc u (s : State) cc hc cv o, u ≠ [] → s.step = 300 →
      advCounts u = .ret (cc, hc, cv) →
      composeTrajectory cfg u cc hc cv s.P_chillers_sum s.start_time = .ok o →
      (advance cfg engine nc u s).trajs = [some o]) := by
  refine ⟨?_, ?_, ?_⟩
  · intro cfg u cc hc cv P t o v hcomp hlook
    obtain ⟨acc, tr, mchw, hcl, htr, hm, hTset, hMchw, hTchwr, hMcw, hHead, htraj⟩ :=
      composeTrajectory_ok_fields hcomp
    constructor
    · simp [htraj, hlook]
    · intro p hp hname
      rw [htraj] at hp
      rcases List.mem_append.mp hp with h1 | h1
      · rcases composeLoop_HR_entries _ _ _ hcl p h1 hname with h2 | ⟨q, hq, hql⟩
        · exact absurd h2 (by simp)
        · rw [hlook] at hql
          have hv : v = .num q := by injection hql
          rw [hv]
          exact hq
      · rw [hlook] at h1
        have hpv : p = ("Head_required", v) := by simpa using h1
        rw [hpv]
  · intro cfg u cc hc cv P t o hcomp hlook
    obtain ⟨acc, tr, mchw, hcl, htr, hm, hTset, hMchw, hTchwr, hMcw, hHead, htraj⟩ :=
      composeTrajectory_ok_fields hcomp
    refine ⟨by simp [htraj, hlook], hHead, ?_⟩
    intro p hp hname
    rw [htraj] at hp
    rcases List.mem_append.mp hp with h1 | h1
    · rcases composeLoop_HR_entries _ _ _ hcl p h1 hname with h2 | ⟨q, hq, hql⟩
      · exact absurd h2 (by simp)
      · rw [hlook] at hql
        exact absurd hql (by simp)
    · rw [hlook] at h1
      have hpv : p = ("Head_required", .num (cfg.mlp cc hc cv o.Mcw)) := by
        simpa using h1
      rw [hpv]
  · intro cfg engine nc u s cc hc cv o hne hstep hcnt hcomp
    exact advance_single_traj hne hstep hcnt hcomp

/-- Witness for claim C4: a caller-supplied Head_required value 9 lands
verbatim in the composed trajectory, reached through the theorem. -/
theorem claim_C4_witness :
    ("Head_required", CtrlVal.num 9) ∈ c4out.traj ∧
    (∀ p ∈ c4out.traj, p.1 = "Head_required" → p.2 = CtrlVal.num 9) := by
  have hcomp : composeTrajectory c3cfg c4u 0 0 0 0 0 = .ok c4out := by
    norm_num +decide [composeTrajectory, composeLoop, distLookup, qLookup, aLookup,
      disturbance_var, calc_Mcw, c3cfg, c4u, c4out]
  exact claim_C4.1 c3cfg c4u 0 0 0 0 0 c4out (.num 9) hcomp (by decide)

/-- Witness for claim C9 at a concrete state and control mapping. -/
theorem claim_C9_witness :
    (set_step (.num 0) s0).1.status = 200 ∧
    (set_step (.num 0) s0).2.step = 0 ∧
    (advance cfg0 engine0 0 [] (set_step (.num 0) s0).2).out = .raised (.nameError "res") ∧
    (advance cfg0 engine0 0 [] (set_step (.num 0) s0).2).ncalls = 0 ∧
    (advance cfg0 engine0 0 [] (set_step (.num 0) s0).2).windows = [] :=
  claim_C9 cfg0 engine0 0 [] s0 (by decide)

end ADCC
